import Mathlib

/-!
Shallow embedding of the virtual-memory core of the meiOS kernel
(crate `libmei`): typed addresses (`src/libmei/src/address.rs`),
the stage-1 descriptor codec and translation-table engine
(`src/libmei/src/mmu/mod.rs`, `src/libmei/src/mmu/translation_table.rs`),
and the buddy physical-page allocator (`src/libmei/src/vm/buddy.rs`).

Machine integers (`u64` / `usize`) are modelled as `Nat`; register
bit-field reads and writes (the `tock_registers` operations used by the
source) are modelled by `read_field` / `write_field` below.  Rust code
that can panic is modelled with `Option` / `Except` where the panic is
reachable from the statements proved here; each such point is marked
with a comment naming the Rust assertion.
-/

set_option autoImplicit false

namespace Mei

/-! ## Bit-field helpers

`tock_registers` field access on an in-memory register of width 64:
a field of `len` bits at offset `off`.  `read_field` mirrors
`reg.read(FIELD)`, `write_field` mirrors `reg.modify(FIELD.val x)`
(the written value is truncated to the field width, all other bits are
preserved). -/

def read_field (v off len : Nat) : Nat :=
  (v >>> off) % 2 ^ len

def write_field (v off len x : Nat) : Nat :=
  ((v >>> (off + len)) <<< (off + len)) + ((x % 2 ^ len) <<< off) + v % 2 ^ off

/-! ## Addresses and translation levels (`src/libmei/src/address.rs`) -/

/-- `AddressTranslationLevel`: sum type with four translation levels. -/
inductive AddressTranslationLevel where
  | zero
  | one
  | two
  | three
  deriving DecidableEq, Repr

namespace AddressTranslationLevel

def toNat : AddressTranslationLevel → Nat
  | .zero => 0
  | .one => 1
  | .two => 2
  | .three => 3

/-- `From<usize> for AddressTranslationLevel`; the source panics
(`bug!`) on a level above three, modelled by `none`. -/
def ofNat? : Nat → Option AddressTranslationLevel
  | 0 => some .zero
  | 1 => some .one
  | 2 => some .two
  | 3 => some .three
  | _ => none

/-- `AddressTranslationLevel::next`; the source panics at `Three`,
which is unreachable at every call site, so the junk value `three`
stands in for the panic. -/
def next : AddressTranslationLevel → AddressTranslationLevel
  | .zero => .one
  | .one => .two
  | .two => .three
  | .three => .three

/-- `AddressTranslationLevel::prev`; the source panics at `Zero`,
which is guarded at every call site, so the junk value `zero`
stands in for the panic. -/
def prev : AddressTranslationLevel → AddressTranslationLevel
  | .zero => .zero
  | .one => .zero
  | .two => .one
  | .three => .two

end AddressTranslationLevel

/-- The `VA` register bit-field offsets: level-0 index at bits
[47:39], level-1 at [38:30], level-2 at [29:21], level-3 at [20:12]. -/
def level_idx_offset : AddressTranslationLevel → Nat
  | .zero => 39
  | .one => 30
  | .two => 21
  | .three => 12

/-- `VirtualAddress::get_idx_for_level`: reads the 9-bit index field
of the given translation level. -/
def get_idx_for_level (va : Nat) (level : AddressTranslationLevel) : Nat :=
  read_field va (level_idx_offset level) 9

/-- `VirtualAddress::set_idx_for_level` (the `idx < 512` assertion
holds at every call site; `FIELD.val` truncates to 9 bits). -/
def set_idx_for_level (va : Nat) (level : AddressTranslationLevel) (idx : Nat) : Nat :=
  write_field va (level_idx_offset level) 9 idx

/-- `VirtualAddress::clear_idx_for_level`. -/
def clear_idx_for_level (va : Nat) (level : AddressTranslationLevel) : Nat :=
  write_field va (level_idx_offset level) 9 0

/-- `VirtualAddress::identify_ttbr_select`: reads the 16-bit
`TTBR_Select` field at bits [63:48]; `0xFFFF` selects TTBR1, `0`
selects TTBR0, anything else is rejected. -/
def identify_ttbr_select (va : Nat) : Option Nat :=
  let sel := read_field va 48 16
  if sel = 0xFFFF then some 1 else if sel = 0 then some 0 else none

inductive AddressError where
  | invalidVirtualAddress (v : Nat)
  deriving DecidableEq, Repr

/-- `VirtualAddress::new(val)`: succeeds exactly when
`identify_ttbr_select` recognises the high bits. -/
def VirtualAddress.new (val : Nat) : Except AddressError Nat :=
  match identify_ttbr_select val with
  | some _ => .ok val
  | none => .error (.invalidVirtualAddress val)

/-- The `Address` trait `align_offset`: `ptr & (align - 1)`, which for
the power-of-two alignments used by the code equals `ptr % align`. -/
def align_offset (a align : Nat) : Nat :=
  a &&& (align - 1)

/-- The `Address` trait `is_aligned`. -/
def is_aligned (a align : Nat) : Bool :=
  align_offset a align = 0

/-- The `Address` trait `align_up`. -/
def align_up (a align : Nat) : Nat :=
  if align_offset a align = 0 then a else (a - align_offset a align) + align

/-- The `Address` trait `align_down`. -/
def align_down (a align : Nat) : Nat :=
  a - align_offset a align

/-! ## Granule constants (`src/libmei/src/mmu/utils.rs`, `mod.rs`) -/

def ONE_GIB : Nat := 1024 * 1024 * 1024
def TWO_MIB : Nat := 2 * 1024 * 1024
def FOUR_KIB : Nat := 4 * 1024
def GRANULE_SIZE : Nat := 4096
def NUM_TABLE_DESC_ENTRIES : Nat := 512
def INVALID_DESCRIPTOR : Nat := 0

def NEXT_LEVEL_TABLE_ADDR_SHIFT : Nat := 12
def LEVEL_1_OUTPUT_ADDR_SHIFT : Nat := 30
def LEVEL_2_OUTPUT_ADDR_SHIFT : Nat := 21
def LEVEL_3_OUTPUT_ADDR_SHIFT : Nat := 12

/-- `get_vaddr_spacing_per_entry` (`mmu/utils.rs`). -/
def get_vaddr_spacing_per_entry : AddressTranslationLevel → Nat
  | .zero => 512 * ONE_GIB
  | .one => ONE_GIB
  | .two => TWO_MIB
  | .three => FOUR_KIB

/-! ## Descriptor classification (`translation_table.rs`)

`STAGE1_*_DESCRIPTOR` field layout (`mmu/mod.rs`): bit 0 `VALID`,
bit 1 `TYPE` (`Table`/`Page` = 1, `Block` = 0), bits [4:2] `AttrIndx`,
bits [7:6] `AP`, bits [9:8] `SH`, bit 10 `AF`, bit 53 `PXN`,
bit 54 `UXN`; output address fields [47:12] (4 KiB), [47:21] (2 MiB),
[47:30] (1 GiB), next-level table address [47:12]. -/

inductive RawDescriptor where
  | tableOrPage (v : Nat)
  | block (v : Nat)
  | invalid
  deriving DecidableEq, Repr

/-- `to_raw_desc`: `matches_all(VALID::SET + TYPE::Table)` classifies
as Table-or-Page, `matches_all(VALID::SET + TYPE::Block)` as Block,
anything else (in particular every value with bit 0 clear) as
Invalid. -/
def to_raw_desc (v : Nat) : RawDescriptor :=
  if read_field v 0 1 = 1 && read_field v 1 1 = 1 then .tableOrPage v
  else if read_field v 0 1 = 1 && read_field v 1 1 = 0 then .block v
  else .invalid

inductive Descriptor where
  | table (v : Nat)
  | block (v : Nat)
  | page (v : Nat)
  | invalid
  deriving DecidableEq, Repr

/-- `parse_desc(desc_val, level)`: resolves the Table/Page ambiguity by
level and rejects Block descriptors outside levels 1 and 2.  The source
returns `Result<Descriptor, Descriptor>`; the `Err` case (reported by
callers as `CorruptedTranslationTable`) is modelled by `none`. -/
def parse_desc (v : Nat) (level : AddressTranslationLevel) : Option Descriptor :=
  match to_raw_desc v with
  | .tableOrPage v =>
    if level = .three then some (.page v) else some (.table v)
  | .block v =>
    if level = .one ∨ level = .two then some (.block v) else none
  | .invalid => some .invalid

/-! ## Mapping-scheme planner (`translation_table.rs`)

`find_best_mapping_scheme` decomposes a `(VA, PA, byte_len)` request
into spans tagged 1 GiB / 2 MiB / 4 KiB, greedily from the largest
granule. -/

inductive ContiguousSpan where
  | fourKiB (num_pages : Nat)
  | twoMiB (num_pages : Nat)
  | oneGiB (num_pages : Nat)
  deriving DecidableEq, Repr

def ALIGNMENTS : List Nat := [ONE_GIB, TWO_MIB, FOUR_KIB]

/-- `max_mapping_spans(3)`. -/
def MAX_MAPPING_SPANS : Nat := 7

def span_bytes : ContiguousSpan → Nat
  | .fourKiB n => n * FOUR_KIB
  | .twoMiB n => n * TWO_MIB
  | .oneGiB n => n * ONE_GIB

/-- The `align_offset` helper local to `find_best_mapping_scheme_impl`:
the distance up to the next `align` boundary. -/
def fbms_align_offset (a align : Nat) : Nat :=
  let offset := align_offset a align
  if offset ≠ 0 then align - offset else 0

/-- The `match align` constructor selection inside
`find_best_mapping_scheme_impl`; the `_` arm is `bug!`. -/
def mk_span (align page_count : Nat) : Option ContiguousSpan :=
  if align = ONE_GIB then some (.oneGiB page_count)
  else if align = TWO_MIB then some (.twoMiB page_count)
  else if align = FOUR_KIB then some (.fourKiB page_count)
  else none

/-- `find_best_mapping_scheme_impl`.  The recursion descends one
alignment level per call; `fuel` (4 at top level) makes it structural.
`none` models the panics reachable in the source: indexing
`ALIGNMENTS[level]` out of bounds, the heapless-`Vec` span-capacity
`bug!`, the `assert_ne!(current_span_size, 0)`, and a failing
`VirtualAddress::new`.  Note that the source statement
`span_end.align_down(align);` discards its result (`align_down` takes
`&self` and returns the aligned value without mutating), so
`current_span_size` is *not* rounded down to the alignment; this
no-op is modelled faithfully. -/
def find_best_mapping_scheme_impl :
    Nat → List ContiguousSpan → Nat → Nat → Nat → Nat → Option (List ContiguousSpan)
  | 0, _, _, _, _, _ => none
  | fuel + 1, spans, vaddr, paddr, size, level =>
    if size = 0 then some spans
    else
      match ALIGNMENTS.get? level with
      | none => none
      | some align =>
        let va_offset := fbms_align_offset vaddr align
        let pa_offset := fbms_align_offset paddr align
        if va_offset = pa_offset ∧ size > pa_offset ∧ size - pa_offset ≥ align then
          let current_span_paddr := align_up paddr align
          let current_span_size :=
            (current_span_paddr + size - pa_offset) - current_span_paddr
          if current_span_size = 0 then none
          else
            match find_best_mapping_scheme_impl fuel spans vaddr paddr pa_offset (level + 1) with
            | none => none
            | some spans =>
              let page_count := current_span_size / align
              let pushed :=
                if page_count ≠ 0 then
                  if spans.length < MAX_MAPPING_SPANS then
                    (mk_span align page_count).map (fun sp => spans ++ [sp])
                  else none
                else some spans
              match pushed with
              | none => none
              | some spans =>
                match VirtualAddress.new (align_up vaddr align) with
                | .error _ => none
                | .ok va =>
                  find_best_mapping_scheme_impl fuel spans (va + current_span_size)
                    (current_span_paddr + current_span_size)
                    (size - current_span_size - pa_offset) (level + 1)
        else find_best_mapping_scheme_impl fuel spans vaddr paddr size (level + 1)

/-- `find_best_mapping_scheme`: asserts both addresses are
granule-aligned (`none` on violation) and starts the recursion at the
1 GiB level with an empty span list. -/
def find_best_mapping_scheme (vaddr paddr size : Nat) : Option (List ContiguousSpan) :=
  if is_aligned vaddr GRANULE_SIZE ∧ is_aligned paddr GRANULE_SIZE then
    find_best_mapping_scheme_impl 4 [] vaddr paddr size 0
  else none

/-! ## Buddy allocator (`src/libmei/src/vm/buddy.rs`)

The allocator state after `Storage::init`: the managed region
boundaries, level range, one free list per level and the free-map
(one bit per buddy pair per level).  The intrusive linked lists are
modelled as `List Nat` of block start addresses (`push_back` appends,
`pop_back` takes the last element); the free-map bytes are modelled
as a per-level bit function. -/

/-- `usize::ilog2` (floor of log₂) for positive arguments; the Rust
function panics on zero, callers below model that panic explicitly.
Defined with a structural fuel so it evaluates by kernel reduction. -/
def ilog2_aux : Nat → Nat → Nat
  | 0, _ => 0
  | fuel + 1, n => if n ≤ 1 then 0 else ilog2_aux fuel (n / 2) + 1

def ilog2 (n : Nat) : Nat := ilog2_aux n n

/-- `usize::is_power_of_two`. -/
def is_power_of_two (n : Nat) : Bool :=
  0 < n && n &&& (n - 1) = 0

/-- `usize::next_power_of_two` (0 and 1 both map to 1). -/
def next_power_of_two (n : Nat) : Nat :=
  if n ≤ 1 then 1 else 2 ^ (ilog2 (n - 1) + 1)

inductive BuddyError where
  /-- `Error::AllocError`. -/
  | allocError
  /-- `Error::PhysicalOOM`. -/
  | physicalOOM
  /-- A Rust panic (failed `assert!` or `ilog2` on zero). -/
  | panic
  deriving DecidableEq, Repr

structure BuddyState where
  zero_page : Nat
  start_page : Nat
  end_page : Nat
  min_level : Nat
  max_level : Nat
  free_lists : Nat → List Nat
  free_map : Nat → Nat → Bool

/-- Replace the free list of one level. -/
def set_free_list (s : BuddyState) (level : Nat) (l : List Nat) : BuddyState :=
  { s with free_lists := fun lv => if lv = level then l else s.free_lists lv }

/-- `free_list.push_back(block)`. -/
def push_back (s : BuddyState) (level block : Nat) : BuddyState :=
  set_free_list s level (s.free_lists level ++ [block])

/-- `FreeArea::flip_bit` via `get_word_and_mask`: the pair index is
`((addr - zero_page) >> level) / 2`; the bit is toggled and the
returned Bool is `*word & mask == 0`, i.e. whether the bit is now
clear (equivalently, its previous value). -/
def flip_bit (s : BuddyState) (level addr : Nat) : Bool × BuddyState :=
  let idx := ((addr - s.zero_page) >>> level) / 2
  let old := s.free_map level idx
  (old,
    { s with free_map := fun lv i =>
        if lv = level ∧ i = idx then !old else s.free_map lv i })

/-- `Storage::get_buddy_ptr` without its bound assertion: the address
with the bit at position `level` flipped. -/
def get_buddy_ptr (block level : Nat) : Nat :=
  ((block >>> level) ^^^ 1) <<< level

/-- The split phase of `BuddyAllocator::alloc`: `while level !=
start_level { level -= 1; push the buddy (right half) at the new
level; toggle the pair bit for `block` }`.  The counter `k` is
`level - start_level`; `none` models the
`assert!(buddy_ptr < self.end_page)` panic in `get_buddy_ptr`. -/
def split_down (block start : Nat) : Nat → BuddyState → Option BuddyState
  | 0, s => some s
  | k + 1, s =>
    let level := start + k
    let buddy := get_buddy_ptr block level
    if buddy < s.end_page then
      let s := push_back s level buddy
      let s := (flip_bit s level block).2
      split_down block start k s
    else none

/-- The level-scan phase of `BuddyAllocator::alloc`: for each level in
`start_level..=max_level`, pop the back of the first non-empty free
list, toggle its pair bit (`mark_used`) and split down to
`start_level`. -/
def alloc_scan (start : Nat) : List Nat → BuddyState → Except BuddyError (Nat × BuddyState)
  | [], _ => .error .physicalOOM
  | level :: rest, s =>
    match (s.free_lists level).getLast? with
    | none => alloc_scan start rest s
    | some block =>
      let s := set_free_list s level (s.free_lists level).dropLast
      let s := (flip_bit s level block).2
      match split_down block start (level - start) s with
      | none => .error .panic
      | some s => .ok (block, s)

/-- `BuddyAllocator::alloc(size)`: rejects non-powers-of-two with
`AllocError`, then scans levels `max(size.ilog2(), min_level) ..=
max_level`. -/
def BuddyState.alloc (s : BuddyState) (size : Nat) : Except BuddyError (Nat × BuddyState) :=
  if is_power_of_two size = false then .error .allocError
  else
    let start := max (ilog2 size) s.min_level
    alloc_scan start (List.range' start (s.max_level + 1 - start)) s

/-- The level loop of `BuddyAllocator::free`: toggle the pair bit; if
the buddy was not free, push the block and stop; otherwise remove the
buddy from its free list (`assert!(buddy.link.is_linked())` modelled
as a membership check) and continue coalescing upward.  When the loop
runs out of levels after a final coalesce at `max_level`, the source
returns `Ok(())` without pushing the merged block anywhere — this is
modelled faithfully by the `[]` case. -/
def free_loop : List Nat → Nat → BuddyState → Except BuddyError BuddyState
  | [], _, s => .ok s
  | level :: rest, block, s =>
    let (buddy_free, s) := flip_bit s level block
    if !buddy_free then .ok (push_back s level block)
    else
      let buddy := get_buddy_ptr block level
      if buddy < s.end_page then
        if (s.free_lists level).contains buddy then
          let s := set_free_list s level ((s.free_lists level).erase buddy)
          free_loop rest (min block buddy) s
        else .error .panic
      else .error .panic

/-- `BuddyAllocator::free(ptr, size)`.  The very first statement of the
source computes `size.ilog2()`, which panics when `size == 0`, before
any validation runs; then pointers outside `start_page..end_page`,
non-power-of-two sizes and size classes above `max_level` are rejected
with `AllocError`. -/
def BuddyState.free (s : BuddyState) (ptr size : Nat) : Except BuddyError BuddyState :=
  if size = 0 then .error .panic
  else
    let start := max (ilog2 size) s.min_level
    if s.start_page > ptr ∨ s.end_page < ptr + size ∨
        is_power_of_two size = false ∨ s.max_level < start then
      .error .allocError
    else
      free_loop (List.range' start (s.max_level + 1 - start)) ptr s

/-- `<BuddyAllocator as Allocator>::allocate`: rounds
`layout.size()` up to the next power of two, takes the max with
`layout.align()`, and collapses any `alloc` error into `AllocError`. -/
def BuddyState.allocate (s : BuddyState) (layout_size layout_align : Nat) :
    Except BuddyError (Nat × BuddyState) :=
  (s.alloc (max (next_power_of_two layout_size) layout_align)).mapError
    (fun _ => .allocError)

/-- `Storage::add(level, mem)`: carve the range into naturally aligned
blocks, largest-first, pushing each onto its level's free list and
toggling its pair bit.  The recursion descends one level per call;
`fuel` bounds the depth (the source recursion is bounded by `level`). -/
def buddy_add : Nat → Nat → Nat → Nat → BuddyState → BuddyState
  | 0, _, _, _, s => s
  | fuel + 1, level, lo, hi, s =>
    let sz := 1 <<< level
    let offset := align_offset lo sz
    let cur := min (align_up lo sz) hi
    let s := if offset ≠ 0 then buddy_add fuel (level - 1) lo cur s else s
    if cur ≥ hi then s
    else
      let n := (hi - cur) / sz
      let s := (List.range n).foldl
        (fun s k =>
          let b := cur + k * sz
          (flip_bit (push_back s level b) level b).2) s
      let lo2 := cur + n * sz
      if lo2 ≠ hi then buddy_add fuel (level - 1) lo2 hi s else s

/-- `Storage::init` after its metadata carving: the caller supplies the
already-claimed `start` (the `min_alloc`-aligned `start_page`); the
zero page is `start` aligned down to `max_alloc`, the end page is
`mem.end` aligned down to `min_alloc`, and the whole usable range is
fed to `Storage::add` at `max_level`. -/
def mk_buddy_state (start e min_alloc max_alloc : Nat) : BuddyState :=
  let min_alloc := next_power_of_two min_alloc
  let max_alloc := next_power_of_two max_alloc
  let min_level := ilog2 min_alloc
  let max_level := ilog2 max_alloc
  let end_page := align_down e min_alloc
  let s :=
    { zero_page := align_down start max_alloc
      start_page := start
      end_page := end_page
      min_level := min_level
      max_level := max_level
      free_lists := fun _ => []
      free_map := fun _ _ => false }
  buddy_add (max_level + 2) max_level start end_page s

/-- `BuddyAllocator::get_free_area_information`: `(block size, free
count)` per level. -/
def BuddyState.histogram (s : BuddyState) : List (Nat × Nat) :=
  (List.range' s.min_level (s.max_level + 1 - s.min_level)).map
    (fun level => (1 <<< level, (s.free_lists level).length))

/-- Observable result of `alloc`: the error, if any. -/
def alloc_err (s : BuddyState) (size : Nat) : Option BuddyError :=
  match s.alloc size with
  | .error e => some e
  | .ok _ => none

/-- Observable result of `alloc`: the returned address, if any. -/
def alloc_addr (s : BuddyState) (size : Nat) : Option Nat :=
  match s.alloc size with
  | .ok (a, _) => some a
  | .error _ => none

/-- Observable result of `free`: the error, if any. -/
def free_err (s : BuddyState) (ptr size : Nat) : Option BuddyError :=
  match s.free ptr size with
  | .error e => some e
  | .ok _ => none

/-- Test scenario: allocate one block of `size`, free it again with the
same size, and report the resulting free-area histogram (`none` if
either call fails). -/
def histogram_after_alloc_free (s : BuddyState) (size : Nat) : Option (List (Nat × Nat)) :=
  match s.alloc size with
  | .ok (a, s1) =>
    match s1.free a size with
    | .ok s2 => some s2.histogram
    | .error _ => none
  | .error _ => none

/-- The list of levels scanned by `alloc(size)`:
`max(size.ilog2(), min_level) ..= max_level`. -/
def alloc_levels (s : BuddyState) (size : Nat) : List Nat :=
  List.range' (max (ilog2 size) s.min_level)
    (s.max_level + 1 - max (ilog2 size) s.min_level)

/-- The free-list well-formedness used by the C5 theorem: every block
on a free list of a level in range is aligned to and fits inside the
managed region (the allocator establishes this at `manage` time and
preserves it). -/
def buddy_lists_wf (s : BuddyState) : Prop :=
  ∀ l ∈ List.range (s.max_level + 1),
    ∀ b ∈ s.free_lists l, b % 2 ^ l = 0 ∧ b + 2 ^ l ≤ s.end_page

instance (s : BuddyState) : Decidable (buddy_lists_wf s) := by
  unfold buddy_lists_wf
  infer_instance

/-! ## Memory-map types (`src/libmei/src/vm.rs`) -/

inductive MemoryKind where
  | normal
  | device
  deriving DecidableEq, Repr

/-- `AccessPermissions` bitflag values.  Note that `EL1_EXECUTE`
(0b101) and `EL0_EXECUTE` (0b101_0000) each include the corresponding
READ bit, exactly as declared in the source. -/
def EL1_READ : Nat := 0x01
def EL1_WRITE : Nat := 0x02
def EL1_EXECUTE : Nat := 0x05
def EL0_READ : Nat := 0x10
def EL0_WRITE : Nat := 0x20
def EL0_EXECUTE : Nat := 0x50

/-- `bitflags` `contains`: all bits of `m` are present in `f`. -/
def ap_contains (f m : Nat) : Bool :=
  f &&& m = m

/-- `MapDesc`: a `phy_addr -> virt_addr` mapping of `num_pages`
4 KiB pages with its access permissions (a bitflag value). -/
structure MapDesc where
  phy_addr : Nat
  virt_addr : Nat
  num_pages : Nat
  access_perms : Nat
  deriving DecidableEq, Repr

/-- `MemoryMap`: a `MapDesc` tagged Normal (cacheable) or Device. -/
inductive MemoryMap where
  | normal (desc : MapDesc)
  | device (desc : MapDesc)
  deriving DecidableEq, Repr

/-- The engine error kinds reachable from the modelled code
(`src/libmei/src/error.rs`), plus `panic` for Rust panics. -/
inductive Error where
  | corruptedTranslationTable (v : Nat)
  | vmMapExists (m : MemoryMap)
  | physicalOOM
  | panic
  deriving DecidableEq, Repr

/-! ## Attribute codec (`translation_table.rs`) -/

/-- `parse_map_attrs(ap, device)`: composes AP / PXN / UXN / SH into a
descriptor attribute value starting from zero. -/
def parse_map_attrs (ap : Nat) (kind : MemoryKind) : Nat :=
  let el1_rw := ap_contains ap (EL1_READ ||| EL1_WRITE)
  let el0_rw := ap_contains ap (EL0_READ ||| EL0_WRITE)
  let el1_ro := ap_contains ap EL1_READ
  let el0_ro := ap_contains ap EL0_READ
  let d : Nat := 0
  let d := if el1_rw then
             (if el0_rw then write_field d 6 2 1 else write_field d 6 2 0)
           else if el1_ro then
             (if el0_ro then write_field d 6 2 3 else write_field d 6 2 2)
           else d
  let d := if ap_contains ap EL1_WRITE || !ap_contains ap EL1_EXECUTE then
             write_field d 53 1 1
           else d
  let d := if ap_contains ap EL0_WRITE || !ap_contains ap EL0_EXECUTE then
             write_field d 54 1 1
           else d
  match kind with
  | .normal => write_field d 8 2 3
  | .device => write_field d 8 2 2

/-- The `tock_registers` `FieldValue::value` of the four
`STAGE1_*_DESCRIPTOR::AP::*` enumerants.  A `FieldValue` stores its
value already shifted into field position (AP sits at bits [7:6]):
`modify(AP::RW_EL1_EL0)` must OR `0b01 << 6` into the descriptor, just
as `modify(PXN::SET)` must set bit 53 (the raw descriptor
`0x60000000000303` of the C3 run depends on it). -/
def AP_RW_EL1_VALUE : Nat := 0 <<< 6

def AP_RW_EL1_EL0_VALUE : Nat := 1 <<< 6

def AP_RO_EL1_VALUE : Nat := 2 <<< 6

def AP_RO_EL1_EL0_VALUE : Nat := 3 <<< 6

/-- `parse_access_perms`: recovers an `AccessPermissions` value from
the AP / PXN / UXN fields of a leaf descriptor.  The source compares
`ap = ll_desc.read(AP)` — the unshifted 2-bit field, 0..3 — against
the shifted `FieldValue::value` constants 0x40 / 0 / 0xC0 / 0x80, so
only `AP = 0b00` (`RW_EL1.value = 0`) ever matches; every other AP
encoding falls through to
`bug!("Invalid Access Permissions on page")`, modelled as `none`. -/
def parse_access_perms (d : Nat) : Option Nat :=
  let ap := read_field d 6 2
  let perms? :=
    if ap = AP_RW_EL1_EL0_VALUE then
      some (EL1_READ ||| EL1_WRITE ||| EL0_READ ||| EL0_WRITE)
    else if ap = AP_RW_EL1_VALUE then some (EL1_READ ||| EL1_WRITE)
    else if ap = AP_RO_EL1_EL0_VALUE then some (EL1_READ ||| EL0_READ)
    else if ap = AP_RO_EL1_VALUE then some EL1_READ
    else none
  perms?.map fun perms =>
    let perms := if read_field d 53 1 = 0 ∧ ¬ ap_contains perms EL1_WRITE = true
                 then perms ||| EL1_EXECUTE else perms
    if read_field d 54 1 = 0 ∧ ¬ ap_contains perms EL0_WRITE = true
    then perms ||| EL0_EXECUTE else perms

/-- The `is_cacheable` test of `virt2phy` and `create_memory_map`:
a descriptor is Device memory iff its SH field matches
`OuterShareable` (0b10). -/
def memory_kind_of_desc (d : Nat) : MemoryKind :=
  if read_field d 8 2 = 2 then .device else .normal

/-- `parse_output_address(ll_desc, level)`: reads the granule-sized
output-address field and shifts it back up.  `none` models the `bug!`
at level zero and the TYPE assertions. -/
def parse_output_address (d : Nat) : AddressTranslationLevel → Option Nat
  | .zero => none
  | .one =>
    if read_field d 1 1 = 0 then
      some ((read_field d 30 18) <<< LEVEL_1_OUTPUT_ADDR_SHIFT)
    else none
  | .two =>
    if read_field d 1 1 = 0 then
      some ((read_field d 21 27) <<< LEVEL_2_OUTPUT_ADDR_SHIFT)
    else none
  | .three =>
    if read_field d 1 1 = 1 then
      some ((read_field d 12 36) <<< LEVEL_3_OUTPUT_ADDR_SHIFT)
    else none

/-! ## Descriptor constructors (`translation_table.rs`) -/

/-- `new_stage1_table_desc`: asserts the next-level pointer is nonzero
and 4 KiB-aligned (modelled as `none`), then writes VALID, TYPE=Table
and the 36-bit next-level address field. -/
def new_stage1_table_desc (next_level_addr : Nat) : Option Nat :=
  if next_level_addr ≠ 0 ∧ next_level_addr &&& (2 ^ NEXT_LEVEL_TABLE_ADDR_SHIFT - 1) = 0 then
    let d := write_field 0 0 1 1
    let d := write_field d 1 1 1
    let d := write_field d 12 36 (next_level_addr >>> NEXT_LEVEL_TABLE_ADDR_SHIFT)
    some d
  else none

/-- `new_stage1_page_desc`: asserts 4 KiB alignment of the output
address, then writes VALID, TYPE=Page and the output-address field on
top of the attribute bits. -/
def new_stage1_page_desc (output_address attributes : Nat) : Option Nat :=
  if output_address &&& (2 ^ LEVEL_3_OUTPUT_ADDR_SHIFT - 1) = 0 then
    let d := write_field attributes 0 1 1
    let d := write_field d 1 1 1
    let d := write_field d 12 36 (output_address >>> LEVEL_3_OUTPUT_ADDR_SHIFT)
    some d
  else none

inductive BlockDescLevel where
  | one
  | two
  deriving DecidableEq, Repr

/-- `new_stage1_block_desc`: asserts 1 GiB / 2 MiB alignment of the
output address per level, then writes VALID, TYPE=Block and the
output-address field on top of the attribute bits. -/
def new_stage1_block_desc (level : BlockDescLevel) (output_address attributes : Nat) :
    Option Nat :=
  let d := write_field attributes 0 1 1
  let d := write_field d 1 1 0
  match level with
  | .one =>
    if output_address &&& (2 ^ LEVEL_1_OUTPUT_ADDR_SHIFT - 1) = 0 then
      some (write_field d 30 18 (output_address >>> LEVEL_1_OUTPUT_ADDR_SHIFT))
    else none
  | .two =>
    if output_address &&& (2 ^ LEVEL_2_OUTPUT_ADDR_SHIFT - 1) = 0 then
      some (write_field d 21 27 (output_address >>> LEVEL_2_OUTPUT_ADDR_SHIFT))
    else none

/-! ## Translation-table state

A `DescriptorTable` is 512 descriptors; the `TranslationTable` owns
the root table directly (it is not allocator-backed), while
child tables live in allocator memory, modelled as an association
list from physical table address to table contents.  The descriptor
allocator is modelled as an inexhaustible supply of fresh, zeroed,
4 KiB-aligned tables at `next_alloc`, `next_alloc + 0x1000`, ... -/

abbrev DescTable := Fin 512 → Nat

inductive Loc where
  | root
  | mem (addr : Nat)
  deriving DecidableEq, Repr

structure TT where
  root : DescTable
  mem : List (Nat × DescTable)
  next_alloc : Nat

def TT.empty (next_alloc : Nat) : TT :=
  { root := fun _ => INVALID_DESCRIPTOR, mem := [], next_alloc := next_alloc }

def TT.table_at (tt : TT) : Loc → Option DescTable
  | .root => some tt.root
  | .mem a => (tt.mem.find? (fun p => p.1 = a)).map (fun p => p.2)

/-- `load_desc(descs, idx)`. -/
def load_desc (tt : TT) (loc : Loc) (idx : Nat) : Option Nat :=
  (tt.table_at loc).bind fun t =>
    if h : idx < 512 then some (t ⟨idx, h⟩) else none

def DescTable.set (t : DescTable) (idx v : Nat) : DescTable :=
  fun i => if i.val = idx then v else t i

/-- `*load_desc_mut(descs, idx) = v`. -/
def store_desc (tt : TT) (loc : Loc) (idx v : Nat) : TT :=
  match loc with
  | .root => { tt with root := tt.root.set idx v }
  | .mem a =>
    { tt with mem := tt.mem.map (fun p => if p.1 = a then (a, p.2.set idx v) else p) }

/-- `read_next_level_desc`: next-level table address field shifted back
up. -/
def read_next_level_desc (d : Nat) : Nat :=
  (read_field d 12 36) <<< NEXT_LEVEL_TABLE_ADDR_SHIFT

/-- `get_next_level_desc`: asserts the pointer is nonzero
(`assert_ne!`) and dereferences it; `none` also covers a dangling
pointer, which in the source would be undefined behaviour. -/
def get_next_level_desc (tt : TT) (d : Nat) : Option Loc :=
  let a := read_next_level_desc d
  if a = 0 then none
  else
    match tt.table_at (.mem a) with
    | some _ => some (.mem a)
    | none => none

def TRANSLATION_LEVELS : List AddressTranslationLevel := [.zero, .one, .two, .three]

/-! ## Lookup — `TranslationTable::virt2phy` -/

structure TranslationDesc where
  virt_addr : Nat
  phy_addr : Nat
  access_perms : Nat
  memory_kind : MemoryKind
  deriving DecidableEq, Repr

/-- The `to_translation_desc` closure of `virt2phy`: builds the
translation record for a leaf descriptor.  The `bug!`/assertions of
`parse_output_address` and the reachable
`bug!("Invalid Access Permissions on page")` of `parse_access_perms`
surface as `.panic`; on the non-panicking path the closure always
returns `Some`. -/
def to_translation_desc (vaddr d : Nat) (level : AddressTranslationLevel) :
    Except Error (Option TranslationDesc) :=
  match parse_output_address d level, parse_access_perms d with
  | some pa, some perms =>
    .ok (some { virt_addr := vaddr
                phy_addr := pa
                access_perms := perms
                memory_kind := memory_kind_of_desc d })
  | _, _ => .error .panic

/-- The level loop of `virt2phy`: `.ok()?` turns a corrupt descriptor
into a `None` return; the Table arm asserts `level != Three`
(a panic, though unreachable as `parse_desc` never yields Table at
level three) and descends through `get_next_level_desc`, whose
`assert_ne!` is `.panic` too, as is the trailing
`bug!("Cannot reach here")` (the `[]` case) and a failing
descriptor-table load. -/
def virt2phy_walk (tt : TT) (vaddr : Nat) :
    List AddressTranslationLevel → Loc → Except Error (Option TranslationDesc)
  | [], _ => .error .panic
  | level :: rest, loc =>
    match load_desc tt loc (get_idx_for_level vaddr level) with
    | none => .error .panic
    | some desc =>
      match parse_desc desc level with
      | none => .ok none
      | some (.table d) =>
        if level = .three then .error .panic
        else
          match get_next_level_desc tt d with
          | none => .error .panic
          | some child => virt2phy_walk tt vaddr rest child
      | some (.block d) => to_translation_desc vaddr d level
      | some (.page d) => to_translation_desc vaddr d level
      | some .invalid => .ok none

def TT.virt2phy (tt : TT) (vaddr : Nat) : Except Error (Option TranslationDesc) :=
  virt2phy_walk tt vaddr TRANSLATION_LEVELS .root

/-! ## Insert — `TranslationTable::map` -/

/-- `ParsedMemoryMap`. -/
structure ParsedMemoryMap where
  phy_addr : Nat
  virt_addr : Nat
  num_pages : Nat
  attributes : Nat
  deriving DecidableEq, Repr

/-- `parse_memory_map(map)`. -/
def parse_memory_map : MemoryMap → ParsedMemoryMap
  | .normal d =>
    { phy_addr := d.phy_addr, virt_addr := d.virt_addr, num_pages := d.num_pages
      attributes := parse_map_attrs d.access_perms .normal }
  | .device d =>
    { phy_addr := d.phy_addr, virt_addr := d.virt_addr, num_pages := d.num_pages
      attributes := parse_map_attrs d.access_perms .device }

/-- `install_new_tbl_desc`: allocate a zeroed table from the
descriptor allocator (the model allocator always succeeds; a real
allocation failure would be `PhysicalOOM`), build a Table descriptor
for it and store it into the current slot. -/
def install_new_tbl_desc (tt : TT) (loc : Loc) (idx : Nat) : Except Error (Nat × TT) :=
  let addr := tt.next_alloc
  let tt :=
    { tt with
      mem := tt.mem ++ [(addr, fun _ => INVALID_DESCRIPTOR)]
      next_alloc := tt.next_alloc + FOUR_KIB }
  match new_stage1_table_desc addr with
  | none => .error .panic
  | some d => .ok (d, store_desc tt loc idx d)

/-- The descriptor-writing loop of `install_contigious_mappings`:
every slot written must hold `INVALID_DESCRIPTOR` beforehand
(`assert_eq!`, modelled as `.panic`). -/
def icm_loop (loc : Loc) (page_size : Nat) (ctor : Nat → Nat → Option Nat)
    (attrs : Nat) : Nat → Nat → Nat → TT → Except Error TT
  | _, _, 0, tt => .ok tt
  | idx, paddr, n + 1, tt =>
    match load_desc tt loc idx with
    | none => .error .panic
    | some d =>
      if d = INVALID_DESCRIPTOR then
        match ctor paddr attrs with
        | none => .error .panic
        | some nd =>
          icm_loop loc page_size ctor attrs (idx + 1) (paddr + page_size) n
            (store_desc tt loc idx nd)
      else .error .panic

/-- `install_contigious_mappings`: write
`min(num_pages, 512 - idx)` consecutive leaf descriptors and advance
the parsed map. -/
def install_contigious_mappings (m : ParsedMemoryMap) (idx : Nat) (loc : Loc) (tt : TT)
    (page_size : Nat) (ctor : Nat → Nat → Option Nat) :
    Except Error (ParsedMemoryMap × TT) :=
  let num_mapped_pages := min m.num_pages (NUM_TABLE_DESC_ENTRIES - idx)
  match icm_loop loc page_size ctor m.attributes idx m.phy_addr num_mapped_pages tt with
  | .error e => .error e
  | .ok tt =>
    .ok
      ({ m with
          phy_addr := m.phy_addr + num_mapped_pages * page_size
          virt_addr := m.virt_addr + num_mapped_pages * page_size
          num_pages := m.num_pages - num_mapped_pages }, tt)

/-- The level loop of `TranslationTable::install_page_descs` (target:
level-3 Page descriptors).  Table descriptors descend (installing new
child tables over Invalid slots above level 3); a Block or Page found
on the way is `VMMapExists`. -/
def install_page_walk (mmap : MemoryMap) :
    List AddressTranslationLevel → TT → ParsedMemoryMap → Loc →
    Except Error (ParsedMemoryMap × TT)
  | [], tt, m, _ => .ok (m, tt)
  | level :: rest, tt, m, loc =>
    match load_desc tt loc (get_idx_for_level m.virt_addr level) with
    | none => .error .panic
    | some desc =>
      match parse_desc desc level with
      | none => .error (.corruptedTranslationTable desc)
      | some (.table d) =>
        if level = .three then .error .panic
        else
          match get_next_level_desc tt d with
          | none => .error .panic
          | some child => install_page_walk mmap rest tt m child
      | some (.block _) => .error (.vmMapExists mmap)
      | some (.page _) => .error (.vmMapExists mmap)
      | some .invalid =>
        match level with
        | .three =>
          install_contigious_mappings m (get_idx_for_level m.virt_addr level) loc tt
            FOUR_KIB new_stage1_page_desc
        | _ =>
          match install_new_tbl_desc tt loc (get_idx_for_level m.virt_addr level) with
          | .error e => .error e
          | .ok (d, tt) =>
            match get_next_level_desc tt d with
            | none => .error .panic
            | some child => install_page_walk mmap rest tt m child

/-- The level loop of `TranslationTable::install_l2_block_desc`
(target: level-2 Block descriptors).  A Block found on the way is
`VMMapExists`; a Page (below the target level) is reported as
`CorruptedTranslationTable`; an Invalid slot at level 3 likewise. -/
def install_l2_walk (mmap : MemoryMap) :
    List AddressTranslationLevel → TT → ParsedMemoryMap → Loc →
    Except Error (ParsedMemoryMap × TT)
  | [], tt, m, _ => .ok (m, tt)
  | level :: rest, tt, m, loc =>
    match load_desc tt loc (get_idx_for_level m.virt_addr level) with
    | none => .error .panic
    | some desc =>
      match parse_desc desc level with
      | none => .error (.corruptedTranslationTable desc)
      | some (.table d) =>
        if level = .three then .error .panic
        else
          match get_next_level_desc tt d with
          | none => .error .panic
          | some child => install_l2_walk mmap rest tt m child
      | some (.block _) => .error (.vmMapExists mmap)
      | some (.page _) => .error (.corruptedTranslationTable desc)
      | some .invalid =>
        match level with
        | .zero | .one =>
          match install_new_tbl_desc tt loc (get_idx_for_level m.virt_addr level) with
          | .error e => .error e
          | .ok (d, tt) =>
            match get_next_level_desc tt d with
            | none => .error .panic
            | some child => install_l2_walk mmap rest tt m child
        | .two =>
          install_contigious_mappings m (get_idx_for_level m.virt_addr level) loc tt
            TWO_MIB (fun output_address attributes =>
              new_stage1_block_desc .two output_address attributes)
        | .three => .error (.corruptedTranslationTable desc)

/-- The level loop of `TranslationTable::install_l1_block_desc`
(target: level-1 Block descriptors).  A Block at level 1 is
`VMMapExists`; a Block at any other level, a Page, and an Invalid slot
at levels 2/3 are reported as `CorruptedTranslationTable`. -/
def install_l1_walk (mmap : MemoryMap) :
    List AddressTranslationLevel → TT → ParsedMemoryMap → Loc →
    Except Error (ParsedMemoryMap × TT)
  | [], tt, m, _ => .ok (m, tt)
  | level :: rest, tt, m, loc =>
    match load_desc tt loc (get_idx_for_level m.virt_addr level) with
    | none => .error .panic
    | some desc =>
      match parse_desc desc level with
      | none => .error (.corruptedTranslationTable desc)
      | some (.table d) =>
        if level = .three then .error .panic
        else
          match get_next_level_desc tt d with
          | none => .error .panic
          | some child => install_l1_walk mmap rest tt m child
      | some (.block _) =>
        if level = .one then .error (.vmMapExists mmap)
        else .error (.corruptedTranslationTable desc)
      | some (.page _) => .error (.corruptedTranslationTable desc)
      | some .invalid =>
        match level with
        | .zero =>
          match install_new_tbl_desc tt loc (get_idx_for_level m.virt_addr level) with
          | .error e => .error e
          | .ok (d, tt) =>
            match get_next_level_desc tt d with
            | none => .error .panic
            | some child => install_l1_walk mmap rest tt m child
        | .one =>
          install_contigious_mappings m (get_idx_for_level m.virt_addr level) loc tt
            ONE_GIB (fun output_address attributes =>
              new_stage1_block_desc .one output_address attributes)
        | .two | .three => .error (.corruptedTranslationTable desc)

/-- One `while map.num_pages > 0 { install(..) }` loop of `map_impl`.
Each successful install maps at least one page, so the page count is
a sound fuel; exhaustion is modelled as an unreachable `.panic`. -/
def span_loop (step : TT → ParsedMemoryMap → Except Error (ParsedMemoryMap × TT)) :
    Nat → TT → ParsedMemoryMap → Except Error (ParsedMemoryMap × TT)
  | fuel, tt, m =>
    if m.num_pages = 0 then .ok (m, tt)
    else
      match fuel with
      | 0 => .error .panic
      | f + 1 =>
        match step tt m with
        | .error e => .error e
        | .ok (m, tt) => span_loop step f tt m

/-- The per-span loop of `map_impl`: set `num_pages` to the span's
page count and run the matching installer until it is exhausted. -/
def map_spans (mmap : MemoryMap) :
    List ContiguousSpan → TT → ParsedMemoryMap → Except Error TT
  | [], tt, _ => .ok tt
  | span :: rest, tt, m =>
    let n :=
      match span with
      | .fourKiB k => k
      | .twoMiB k => k
      | .oneGiB k => k
    let step :=
      match span with
      | .fourKiB _ => fun tt m => install_page_walk mmap TRANSLATION_LEVELS tt m .root
      | .twoMiB _ => fun tt m => install_l2_walk mmap TRANSLATION_LEVELS tt m .root
      | .oneGiB _ => fun tt m => install_l1_walk mmap TRANSLATION_LEVELS tt m .root
    match span_loop step n tt { m with num_pages := n } with
    | .error e => .error e
    | .ok (m, tt) => map_spans mmap rest tt m

/-- `TranslationTable::map_impl`. -/
def TT.map_impl (tt : TT) (pm : ParsedMemoryMap) (mmap : MemoryMap) : Except Error TT :=
  match find_best_mapping_scheme pm.virt_addr pm.phy_addr (pm.num_pages * GRANULE_SIZE) with
  | none => .error .panic
  | some spans => map_spans mmap spans tt { pm with num_pages := 0 }

/-- `TranslationTable::map`. -/
def TT.map (tt : TT) (mmap : MemoryMap) : Except Error TT :=
  tt.map_impl (parse_memory_map mmap) mmap

/-! ## Observable projections for concrete engine runs -/

/-- Map `mmap` into a fresh table (allocator handing out tables from
`next0`) and look up `vaddr`. -/
def map_then_virt2phy (next0 : Nat) (mmap : MemoryMap) (vaddr : Nat) :
    Except Error (Option TranslationDesc) :=
  match (TT.empty next0).map mmap with
  | .ok tt => tt.virt2phy vaddr
  | .error e => .error e

/-- Map `m1` then `m2` into a fresh table and report the error, if
any, of the second `map`. -/
def map_map_err (next0 : Nat) (m1 m2 : MemoryMap) : Option Error :=
  match (TT.empty next0).map m1 with
  | .ok tt =>
    match tt.map m2 with
    | .error e => some e
    | .ok _ => none
  | .error _ => none

/-! ## Range traversal — `TranslationTable::traverse`

`TraverseIterator` walks the half-open VA range, yielding
`PhysicalBlock` items for Block/Page descriptors and, with
`free_empty_descs`, `UnusedMemory` items for descriptor tables whose
512 entries are all invalid.  The iterator's stash holds the chain of
descriptor tables from the root to the current table; the model
stores table *addresses* (the root's address is `root_addr`, a
parameter standing for the address of the `TranslationTable`'s own
storage, which is not allocator memory). -/

inductive IterState where
  | load
  | step
  | moveRight
  | halt
  deriving DecidableEq, Repr

structure PhysicalBlockOverlapInfo where
  phy_block : Nat
  vaddr : Nat
  size : Nat
  overlap_s : Nat
  overlap_e : Nat
  desc_table : Nat
  desc_idx : Nat
  deriving DecidableEq, Repr

inductive TraverseYield where
  | physicalBlock (info : PhysicalBlockOverlapInfo)
  | unusedMemory (addr : Nat)
  deriving DecidableEq, Repr

structure TravIter where
  root_addr : Nat
  rng_start : Nat
  rng_end : Nat
  va_explored : Nat
  empty_descs : List Nat
  stash : List Nat
  free_flag : Bool
  state : Except Error IterState

/-- Table lookup by address: the root lives at `root_addr`, all other
tables in allocator memory. -/
def trav_table_at (tt : TT) (rA a : Nat) : Option DescTable :=
  if a = rA then some tt.root
  else (tt.mem.find? (fun p => p.1 = a)).map (fun p => p.2)

def trav_load_desc (tt : TT) (rA a idx : Nat) : Option Nat :=
  (trav_table_at tt rA a).bind fun t =>
    if h : idx < 512 then some (t ⟨idx, h⟩) else none

def trav_store_desc (tt : TT) (rA a idx v : Nat) : TT :=
  if a = rA then { tt with root := tt.root.set idx v }
  else { tt with mem := tt.mem.map (fun p => if p.1 = a then (a, p.2.set idx v) else p) }

/-- The level loop of `TraverseIterator::begin`: record the index in
`va_space_explored`, push the current table, descend through Table
descriptors, stop at the first non-Table.  A corrupt descriptor
becomes the stored error state; a zero or unresolvable child pointer
models the `assert_ne!` / dereference panic. -/
def begin_walk (tt : TT) (rA vaddr : Nat) :
    List AddressTranslationLevel → Nat → TravIter → TravIter
  | [], _, it => { it with state := .ok .load }
  | level :: rest, descs, it =>
    let idx := get_idx_for_level vaddr level
    match trav_load_desc tt rA descs idx with
    | none => { it with state := .error .panic }
    | some desc =>
      let it :=
        { it with
          va_explored := set_idx_for_level it.va_explored level idx
          stash := it.stash ++ [descs] }
      match parse_desc desc level with
      | none => { it with state := .error (.corruptedTranslationTable desc) }
      | some (.table d) =>
        let child := read_next_level_desc d
        if child = 0 then { it with state := .error .panic }
        else begin_walk tt rA vaddr rest child it
      | some _ => { it with state := .ok .load }

/-- `TraverseIterator::new` + `begin`.  The source's
`va_rng.start.align_down(FOUR_KIB); va_rng.end.align_up(FOUR_KIB);`
discard their results (`align_down`/`align_up` take `&self`), so the
range is used exactly as passed — modelled faithfully.  `none` models
the closing `assert!(va_space_explored < va_rng.end)` panic. -/
def TravIter.new (tt : TT) (rA s e : Nat) (flag : Bool) : Option TravIter :=
  let it0 : TravIter :=
    { root_addr := rA, rng_start := s, rng_end := e, va_explored := 0
      empty_descs := [], stash := [], free_flag := flag, state := .ok .halt }
  if s ≥ e then some it0
  else
    let it := begin_walk tt rA s TRANSLATION_LEVELS rA it0
    if it.va_explored < e then some it else none

/-- `TraverseIterator::find_next_valid_entry`: scan slots rightwards,
recording each candidate index in `va_space_explored`, until a
non-invalid descriptor is found or the index range / VA range runs
out.  `fuel` (512 at every call) makes the loop structural. -/
def find_next_valid_entry (tt : TT) (descs : Nat) (level : AddressTranslationLevel) :
    Nat → Nat → TravIter → Bool × TravIter
  | 0, _, it => (false, it)
  | fuel + 1, idx, it =>
    if idx < NUM_TABLE_DESC_ENTRIES then
      let it := { it with va_explored := set_idx_for_level it.va_explored level idx }
      if it.va_explored < it.rng_end then
        match trav_load_desc tt it.root_addr descs idx with
        | none => (false, it)
        | some desc =>
          match to_raw_desc desc with
          | .invalid => find_next_valid_entry tt descs level fuel (idx + 1) it
          | _ => (true, it)
      else (false, it)
    else (false, it)

/-- `TraverseIterator::free_descs_if_empty`: never frees at level
zero (the root); otherwise, if all 512 entries of the popped table
have VALID clear, zero the parent's slot and queue the table's
address as unused memory.  The parent is `stash[parent_level]`, which
is in bounds in every reachable call (the stash held
`level.toNat + 1` frames before the pop). -/
def free_descs_if_empty (tt : TT) (it : TravIter) (descs : Nat)
    (level : AddressTranslationLevel) : TT × TravIter :=
  if it.free_flag = false ∨ level = .zero then (tt, it)
  else
    match trav_table_at tt it.root_addr descs with
    | none => (tt, it)
    | some t =>
      if (List.finRange 512).all (fun i => read_field (t i) 0 1 = 0) then
        let parent_level := level.prev
        let parent := it.stash.getD parent_level.toNat 0
        let parent_idx := get_idx_for_level it.va_explored parent_level
        let tt := trav_store_desc tt it.root_addr parent parent_idx INVALID_DESCRIPTOR
        (tt, { it with empty_descs := it.empty_descs ++ [descs] })
      else (tt, it)

/-- `TraverseIterator::ascend`: pop the top frame, possibly free it,
clear the level's VA index, and report whether frames remain. -/
def trav_ascend (tt : TT) (it : TravIter) : Except Error (Bool × TT × TravIter) :=
  match AddressTranslationLevel.ofNat? (it.stash.length - 1), it.stash.getLast? with
  | some level, some descs =>
    let it := { it with stash := it.stash.dropLast }
    let p := free_descs_if_empty tt it descs level
    let tt := p.1
    let it := p.2
    let it := { it with va_explored := clear_idx_for_level it.va_explored level }
    .ok (!it.stash.isEmpty, tt, it)
  | _, _ => .error .panic

/-- The `while self.ascend() {}` drain at the end of the range. -/
def drain_ascend : Nat → TT → TravIter → Except Error (TT × TravIter)
  | 0, _, _ => .error .panic
  | fuel + 1, tt, it =>
    match trav_ascend tt it with
    | .error e => .error e
    | .ok (cont, tt, it) =>
      if cont then drain_ascend fuel tt it else .ok (tt, it)

/-- The `while self.ascend() { .. find_next_valid_entry .. }` loop of
`move_up`. -/
def move_up_loop : Nat → TT → TravIter → Except Error (IterState × TT × TravIter)
  | 0, _, _ => .error .panic
  | fuel + 1, tt, it =>
    match trav_ascend tt it with
    | .error e => .error e
    | .ok (cont, tt, it) =>
      if cont then
        match it.stash.getLast?, AddressTranslationLevel.ofNat? (it.stash.length - 1) with
        | some parent, some parent_level =>
          let parent_idx := get_idx_for_level it.va_explored parent_level
          let p := find_next_valid_entry tt parent parent_level 512 (parent_idx + 1) it
          if p.1 then .ok (.load, tt, p.2)
          else move_up_loop fuel tt p.2
        | _, _ => .error .panic
      else .ok (.halt, tt, it)

/-- `TraverseIterator::move_up`. -/
def trav_move_up (tt : TT) (it : TravIter) : Except Error (IterState × TT × TravIter) :=
  if it.stash.isEmpty then .error .panic
  else if it.va_explored ≥ it.rng_end then
    match drain_ascend (it.stash.length + 1) tt it with
    | .error e => .error e
    | .ok (tt, it) => .ok (.halt, tt, it)
  else move_up_loop (it.stash.length + 1) tt it

/-- `TraverseIterator::move_right`. -/
def trav_move_right (tt : TT) (it : TravIter) : Except Error (IterState × TT × TravIter) :=
  match it.stash.getLast?, AddressTranslationLevel.ofNat? (it.stash.length - 1) with
  | some descs, some level =>
    if it.va_explored < it.rng_end then
      let idx := get_idx_for_level it.va_explored level
      let p := find_next_valid_entry tt descs level 512 (idx + 1) it
      if p.1 then .ok (.load, tt, p.2)
      else trav_move_up tt p.2
    else .error .panic
  | _, _ => .error .panic

/-- `TraverseIterator::step`: descend through a Table descriptor
(pushing the child's address), otherwise move right.  A corrupt
descriptor is returned as `CorruptedTranslationTable`, which
`fetch_block` stores into the iterator state. -/
def trav_step (tt : TT) (it : TravIter) : Except Error (IterState × TT × TravIter) :=
  match it.stash.getLast?, AddressTranslationLevel.ofNat? (it.stash.length - 1) with
  | some descs, some level =>
    if it.va_explored < it.rng_end then
      match trav_load_desc tt it.root_addr descs (get_idx_for_level it.va_explored level) with
      | none => .error .panic
      | some desc =>
        match parse_desc desc level with
        | none => .error (.corruptedTranslationTable desc)
        | some (.table d) =>
          let child := read_next_level_desc d
          if child = 0 then .error .panic
          else .ok (.load, tt, { it with stash := it.stash ++ [child] })
        | some _ => trav_move_right tt it
    else .error .panic
  | _, _ => .error .panic

/-- `TraverseIterator::create_phy_block_info` +
`PhysicalBlockOverlapInfo::new`. -/
def create_phy_block_info (tt : TT) (it : TravIter) (descs : Nat)
    (level : AddressTranslationLevel) (idx : Nat) :
    Except Error PhysicalBlockOverlapInfo :=
  if it.va_explored < it.rng_end then
    match trav_load_desc tt it.root_addr descs idx with
    | none => .error .panic
    | some d =>
      match level with
      | .zero => .error .panic
      | _ =>
        let paddr :=
          match level with
          | .one => read_field d 30 18 * ONE_GIB
          | .two => read_field d 21 27 * TWO_MIB
          | _ => read_field d 12 36 * FOUR_KIB
        let vaddr := it.va_explored
        let block_size := get_vaddr_spacing_per_entry level
        let ovs := max vaddr it.rng_start
        let ove := min (vaddr + block_size) it.rng_end
        .ok { phy_block := paddr, vaddr := vaddr, size := block_size
              overlap_s := ovs - vaddr, overlap_e := ove - vaddr
              desc_table := descs, desc_idx := idx }
  else .error .panic

/-- `TraverseIterator::load_block`: yield a `PhysicalBlockOverlapInfo`
for a Block/Page descriptor at the cursor, nothing otherwise. -/
def load_block (tt : TT) (it : TravIter) :
    Except Error (Option PhysicalBlockOverlapInfo) :=
  match it.stash.getLast?, AddressTranslationLevel.ofNat? (it.stash.length - 1) with
  | some descs, some level =>
    let idx := get_idx_for_level it.va_explored level
    match trav_load_desc tt it.root_addr descs idx with
    | none => .error .panic
    | some desc =>
      match parse_desc desc level with
      | none => .error .panic
      | some (.block _) => (create_phy_block_info tt it descs level idx).map some
      | some (.page _) => (create_phy_block_info tt it descs level idx).map some
      | some _ => .ok none
  | _, _ => .error .panic

inductive FetchResult where
  | block (info : PhysicalBlockOverlapInfo)
  | err (e : Error)
  | noneLeft

/-- `TraverseIterator::fetch_block`: drive the Load / Step / MoveRight
/ Halt machine while the stash is non-empty.  Errors (including the
modelled panics) are stored into the iterator state, exactly as
`self.state = self.step()` does, and surface as an `Err` item on the
next spin. -/
def fetch_block : Nat → TT → TravIter → FetchResult × TT × TravIter
  | 0, tt, it => (.noneLeft, tt, it)
  | fuel + 1, tt, it =>
    if it.stash.isEmpty then (.noneLeft, tt, it)
    else
      match it.state with
      | .error e => (.err e, tt, it)
      | .ok .halt => (.noneLeft, tt, it)
      | .ok .load =>
        match load_block tt it with
        | .error e => (.err e, tt, it)
        | .ok (some info) => (.block info, tt, { it with state := .ok .moveRight })
        | .ok none => fetch_block fuel tt { it with state := .ok .step }
      | .ok .moveRight =>
        match trav_move_right tt it with
        | .error e => fetch_block fuel tt { it with state := .error e }
        | .ok (st, tt2, it2) => fetch_block fuel tt2 { it2 with state := .ok st }
      | .ok .step =>
        match trav_step tt it with
        | .error e => fetch_block fuel tt { it with state := .error e }
        | .ok (st, tt2, it2) => fetch_block fuel tt2 { it2 with state := .ok st }

/-- `<TraverseIterator as Iterator>::next`: drain queued unused
tables first (from the back, as `Vec::pop` does), then fetch the next
physical block. -/
def iter_next (fuel : Nat) (tt : TT) (it : TravIter) :
    Option (Except Error TraverseYield) × TT × TravIter :=
  match it.empty_descs.getLast? with
  | some a =>
    (some (.ok (.unusedMemory a)), tt, { it with empty_descs := it.empty_descs.dropLast })
  | none =>
    match fetch_block fuel tt it with
    | (.block info, tt, it) => (some (.ok (.physicalBlock info)), tt, it)
    | (.err e, tt, it) => (some (.error e), tt, it)
    | (.noneLeft, tt, it) => (none, tt, it)

/-- Collect the items of a traversal, threading the table mutations
made by `free_descs_if_empty`. -/
def traverse_run : Nat → TT → TravIter → List (Except Error TraverseYield)
  | 0, _, _ => []
  | fuel + 1, tt, it =>
    match iter_next (fuel + 1) tt it with
    | (none, _, _) => []
    | (some y, tt2, it2) => y :: traverse_run fuel tt2 it2

/-- `TranslationTable::traverse(va_rng, free_empty_descs)` run to a
list of items (empty if construction panicked). -/
def traverse_outputs (tt : TT) (rA s e : Nat) (flag : Bool) (fuel : Nat) :
    List (Except Error TraverseYield) :=
  match TravIter.new tt rA s e flag with
  | none => []
  | some it => traverse_run fuel tt it

/-- All descriptor tables of a translation table. -/
def tt_tables (tt : TT) : List DescTable :=
  tt.root :: tt.mem.map (fun p => p.2)

/-- Well-formedness for C9: the root's storage address is nonzero and
no descriptor's next-level-table field points back at the root — true
of every table the engine builds, since child tables come from the
descriptor allocator while the root lives inside the
`TranslationTable` itself. -/
def no_child_is_root (tt : TT) (rA : Nat) : Prop :=
  rA ≠ 0 ∧ ∀ t ∈ tt_tables tt, ∀ i : Fin 512, read_next_level_desc (t i) ≠ rA

instance (tt : TT) (rA : Nat) : Decidable (no_child_is_root tt rA) := by
  unfold no_child_is_root
  infer_instance

/-- The traversal invariant behind C9: no stash frame past the first
(the root's) holds the root's address, and no queued unused-memory
pointer is the root's address. -/
def trav_inv (rA : Nat) (it : TravIter) : Prop :=
  (∀ a ∈ it.stash.drop 1, a ≠ rA) ∧ (∀ a ∈ it.empty_descs, a ≠ rA)

/-- Whether an engine result is the `VMMapExists` error. -/
def is_vm_map_exists : Option Error → Bool
  | some (.vmMapExists _) => true
  | _ => false

/-- All 64 unions of the six named `AccessPermissions` constants. -/
def perm_combos : List Nat :=
  [0, EL1_READ].flatMap fun a =>
    [0, EL1_WRITE].flatMap fun b =>
      [0, EL1_EXECUTE].flatMap fun c =>
        [0, EL0_READ].flatMap fun d =>
          [0, EL0_WRITE].flatMap fun e =>
            [0, EL0_EXECUTE].map (fun f => a ||| b ||| c ||| d ||| e ||| f)

/-- The permission combinations whose AP/PXN/UXN encoding decodes back
to exactly the same combination: EL1 RW with EL0 empty (0x03) or EL1
RW with EL0 execute (0x53).  Both encode AP = 0b00, the only AP value
`parse_access_perms` can decode. -/
def roundtrip_exact_combos : List Nat :=
  [0x03, 0x53]

/-- The permission combinations whose encoding sets AP ≠ 0b00 — EL1
readable but not writable (AP 0b10 / 0b11), or EL1 RW together with
EL0 read+write (AP 0b01) — so that `parse_access_perms` falls through
every comparison and hits `bug!("Invalid Access Permissions on
page")`. -/
def panic_combos : List Nat :=
  [0x01, 0x05, 0x11, 0x15, 0x21, 0x25, 0x31, 0x33,
   0x35, 0x37, 0x51, 0x55, 0x71, 0x73, 0x75, 0x77]


/-! ## A concrete traversal scenario for C9

A root at address `0x9000` whose slot 0 points at an all-invalid child
table at `0x100000` and whose slot 1 points at a child at `0x101000`
holding one level-1 Block descriptor: traversing `[0, 2^40)` with
`free_empty_descs = true` yields the block and hands the empty child
table back as `UnusedMemory`, but never the root. -/

def c9_tt : TT :=
  { root := DescTable.set (DescTable.set (fun _ => 0) 0 0x100003) 1 0x101003
    mem := [(0x100000, fun _ => 0), (0x101000, DescTable.set (fun _ => 0) 0 1)]
    next_alloc := 0x200000 }

instance {E A : Type} [DecidableEq E] [DecidableEq A] : DecidableEq (Except E A) := fun a b =>
  match a, b with
  | .ok x, .ok y =>
    if h : x = y then isTrue (by rw [h])
    else isFalse (fun hc => h (by injection hc))
  | .error x, .error y =>
    if h : x = y then isTrue (by rw [h])
    else isFalse (fun hc => h (by injection hc))
  | .ok _, .error _ => isFalse (fun hc => by injection hc)
  | .error _, .ok _ => isFalse (fun hc => by injection hc)


/-! ## Theorems for claims C8 and C10 -/

/-- C8.  `VirtualAddress::new(u)` returns `Ok(u)` iff the upper 16 bits
of `u` are all zeros or all ones; for any other high-bit pattern it
returns `InvalidVirtualAddress(u)`. -/
theorem c8_virtual_address_new_high_bits (u : Nat) (_hu : u < 2 ^ 64) :
    (VirtualAddress.new u = .ok u ↔
      (u >>> 48) % 2 ^ 16 = 0 ∨ (u >>> 48) % 2 ^ 16 = 0xFFFF)
    ∧ (¬((u >>> 48) % 2 ^ 16 = 0 ∨ (u >>> 48) % 2 ^ 16 = 0xFFFF) →
      VirtualAddress.new u = .error (.invalidVirtualAddress u)) := by
  have hfield : read_field u 48 16 = (u >>> 48) % 2 ^ 16 := rfl
  unfold VirtualAddress.new identify_ttbr_select
  rw [hfield]
  norm_num
  by_cases hf : (u >>> 48) % 65536 = 65535
  · simp [hf]
  · by_cases hz : (u >>> 48) % 65536 = 0
    · simp [hf, hz]
    · simp [hf, hz]

/-- Witness for C8 at the concrete input `u = 3`. -/
theorem c8_virtual_address_new_high_bits_witness :
    3 < 2 ^ 64 ∧
    ((VirtualAddress.new 3 = .ok 3 ↔
      (3 >>> 48) % 2 ^ 16 = 0 ∨ (3 >>> 48) % 2 ^ 16 = 0xFFFF)
    ∧ (¬((3 >>> 48) % 2 ^ 16 = 0 ∨ (3 >>> 48) % 2 ^ 16 = 0xFFFF) →
      VirtualAddress.new 3 = .error (.invalidVirtualAddress 3))) :=
  ⟨by decide, c8_virtual_address_new_high_bits 3 (by decide)⟩

/-- C10.  Every 64-bit descriptor value with bit 0 (VALID) clear is
classified `Invalid` by `parse_desc` at every level, regardless of
bits 63:1 — in particular it is never classified Table/Block/Page and
never reported as corrupt (the `none` case of `parse_desc`). -/
theorem c10_valid_bit_clear_is_invalid (v : Nat) (_hv : v < 2 ^ 64) (h0 : v % 2 = 0)
    (level : AddressTranslationLevel) :
    parse_desc v level = some .invalid := by
  have h1 : read_field v 0 1 = 0 := by
    show (v >>> 0) % 2 ^ 1 = 0
    simpa using h0
  unfold parse_desc to_raw_desc
  rw [h1]
  simp

/-- Witness for C10 at the concrete input `v = 2` (VALID clear, TYPE
set), level 1. -/
theorem c10_valid_bit_clear_is_invalid_witness :
    (2 < 2 ^ 64 ∧ 2 % 2 = 0) ∧ parse_desc 2 .one = some .invalid :=
  ⟨by decide, c10_valid_bit_clear_is_invalid 2 (by decide) (by decide) .one⟩

/-! ## Theorem for claim C2 -/

/-- C2.  Evaluation of the planner at the failing input
`(VA = 0, PA = 0, byte_len = 0x201000)` (2 MiB + 4 KiB, both addresses
4 KiB-aligned, length a 4 KiB multiple): the output is a single
2 MiB span, so the span lengths sum to 0x200000, not 0x201000 — the
4 KiB tail is silently dropped.  Cause: `span_end.align_down(align);`
in `find_best_mapping_scheme_impl` discards its result, so the
suffix length `size - current_span_size - pa_offset` is always zero
and the sub-granule tail is never recursed on. -/
theorem c2_planner_span_lengths_do_not_sum :
    find_best_mapping_scheme 0 0 0x201000 = some [ContiguousSpan.twoMiB 1]
    ∧ ([ContiguousSpan.twoMiB 1].map span_bytes).sum = 0x200000
    ∧ (0x200000 : Nat) ≠ 0x201000 := by
  decide

/-! ## Theorems for claims C1, C3 and C4 -/

/-- C1.  Evaluation of the code at the failing input.  After
`map({ pa = 0x5000, va = 0, 1 page })`, the lookup `virt2phy(0x800)`
returns physical address `0x5000` — the level-3 Page descriptor's
output address — instead of `m.phy_addr + (v - m.virt_addr) =
0x5000 + 0x800`: `parse_output_address` never ORs the in-page offset
of the VA into the result.  The same holds at the 1 GiB granule:
after an identity map of 262144 pages at 0, `virt2phy(0x12345)`
returns 0 instead of 0x12345. -/
theorem c1_virt2phy_offset_not_combined :
    map_then_virt2phy 0x100000
      (.normal { phy_addr := 0x5000, virt_addr := 0, num_pages := 1, access_perms := 3 })
      0x800
      = .ok (some { virt_addr := 0x800, phy_addr := 0x5000, access_perms := 3
                    memory_kind := .normal })
    ∧ (0x5000 : Nat) ≠ 0x5000 + (0x800 - 0)
    ∧ map_then_virt2phy 0x100000
        (.normal { phy_addr := 0, virt_addr := 0, num_pages := 262144, access_perms := 3 })
        0x12345
      = .ok (some { virt_addr := 0x12345, phy_addr := 0, access_perms := 3
                    memory_kind := .normal })
    ∧ (0 : Nat) ≠ 0 + (0x12345 - 0) := by
  decide

/-- C3.  Evaluation of the code at the failing input.
`map(m1)` installs one 4 KiB page at VA 0; `map(m2)` requests
512 pages at VA 0 with a 2 MiB-congruent PA, so the planner emits a
2 MiB span and `install_l2_block_desc` walks through the existing
Table descriptor at level 2 down to level 3, where it finds `m1`'s
Page descriptor (raw value 0x60000000000303) — and returns
`CorruptedTranslationTable(desc)` instead of `VMMapExists`, although
the two maps share VA page 0. -/
theorem c3_overlap_reported_as_corruption :
    map_map_err 0x100000
      (.normal { phy_addr := 0, virt_addr := 0, num_pages := 1, access_perms := 3 })
      (.normal { phy_addr := 0x200000, virt_addr := 0, num_pages := 512, access_perms := 3 })
      = some (.corruptedTranslationTable 0x60000000000303)
    ∧ is_vm_map_exists
        (map_map_err 0x100000
          (.normal { phy_addr := 0, virt_addr := 0, num_pages := 1, access_perms := 3 })
          (.normal { phy_addr := 0x200000, virt_addr := 0, num_pages := 512
                     access_perms := 3 }))
      = false := by
  decide

/-- C4 (amended).  The codec applied by `map` when building a leaf
descriptor and by `virt2phy` when reading it back
(`parse_map_attrs` / `parse_access_perms`): the decoder compares the
unshifted 2-bit AP read against shifted `FieldValue::value` constants,
so it panics — `bug!("Invalid Access Permissions on page")`, `none`
here — for exactly the combinations in `panic_combos` (those encoding
AP ≠ 0b00: EL1 readable but not writable, or EL1 RW with EL0
read+write), at either memory kind.  The permissions read back exactly
only for `roundtrip_exact_combos` (EL1 RW alone, 0x03, or EL1 RW with
EL0 execute, 0x53); every other non-panicking combination reads back
differently (W^X drops EXECUTE beside WRITE, and combinations without
EL1 read+write leave AP at 0b00 and read back as EL1 RW).  The SH
field, and with it the memory kind, survives for every combination. -/
theorem c4_access_permissions_roundtrip (f : Nat) (hf : f ∈ perm_combos) (k : MemoryKind) :
    memory_kind_of_desc (parse_map_attrs f k) = k
    ∧ (parse_access_perms (parse_map_attrs f k) = some f ↔ f ∈ roundtrip_exact_combos)
    ∧ (parse_access_perms (parse_map_attrs f k) = none ↔ f ∈ panic_combos) := by
  have h : ∀ g ∈ perm_combos,
      (memory_kind_of_desc (parse_map_attrs g .normal) = .normal
        ∧ (parse_access_perms (parse_map_attrs g .normal) = some g ↔
            g ∈ roundtrip_exact_combos)
        ∧ (parse_access_perms (parse_map_attrs g .normal) = none ↔
            g ∈ panic_combos))
      ∧ (memory_kind_of_desc (parse_map_attrs g .device) = .device
        ∧ (parse_access_perms (parse_map_attrs g .device) = some g ↔
            g ∈ roundtrip_exact_combos)
        ∧ (parse_access_perms (parse_map_attrs g .device) = none ↔
            g ∈ panic_combos)) := by
    decide
  cases k with
  | normal => exact (h f hf).1
  | device => exact (h f hf).2

/-- Witness for C4 at `f = EL1_READ | EL1_WRITE`, Normal kind. -/
theorem c4_access_permissions_roundtrip_witness :
    (3 ∈ perm_combos)
    ∧ memory_kind_of_desc (parse_map_attrs 3 .normal) = .normal
    ∧ (parse_access_perms (parse_map_attrs 3 .normal) = some 3 ↔ 3 ∈ roundtrip_exact_combos)
    ∧ (parse_access_perms (parse_map_attrs 3 .normal) = none ↔ 3 ∈ panic_combos) :=
  ⟨by decide, c4_access_permissions_roundtrip 3 (by decide) .normal⟩

/-- Counterexample for C4 as stated, through the full `map` +
`virt2phy` path: one page mapped with
`EL1_READ | EL1_WRITE | EL1_EXECUTE` (0b111) reads back as
`EL1_READ | EL1_WRITE` (0b011) — W^X forces PXN, dropping EXECUTE —
and one page mapped with EL1 RW + EL0 RW (0x33, encoding AP = 0b01)
makes `virt2phy` panic in `parse_access_perms` instead of returning
any permissions at all. -/
theorem c4_access_permissions_roundtrip_counterexample :
    map_then_virt2phy 0x100000
      (.normal { phy_addr := 0x5000, virt_addr := 0, num_pages := 1, access_perms := 7 })
      0
      = .ok (some { virt_addr := 0, phy_addr := 0x5000, access_perms := 3
                    memory_kind := .normal })
    ∧ (3 : Nat) ≠ 7
    ∧ map_then_virt2phy 0x100000
        (.normal { phy_addr := 0x5000, virt_addr := 0, num_pages := 1,
                   access_perms := 0x33 })
        0
      = .error .panic := by
  decide

/-! ## Supporting lemmas for the buddy allocator -/

theorem two_mul_xor_one (m : Nat) : (2 * m) ^^^ 1 = 2 * m + 1 := by
  have h := Nat.xor_bit false m true 0
  simpa [Nat.bit, Nat.two_mul, Nat.add_comm] using h

/-- For a block aligned past `level`, the buddy address is the right
half: `block + 2 ^ level`. -/
theorem get_buddy_ptr_eq_add (block level : Nat) (h : block % 2 ^ (level + 1) = 0) :
    get_buddy_ptr block level = block + 2 ^ level := by
  obtain ⟨m, hm⟩ := Nat.dvd_of_mod_eq_zero h
  have hm2 : block = 2 ^ level * (2 * m) := by rw [hm, pow_succ]; ring
  unfold get_buddy_ptr
  rw [Nat.shiftRight_eq_div_pow, Nat.shiftLeft_eq]
  rw [hm2, Nat.mul_div_cancel_left _ (Nat.two_pow_pos level)]
  rw [two_mul_xor_one]
  ring

/-- The split loop of `alloc` cannot hit its buddy-bound assertion for
a block aligned to and contained in the managed region. -/
theorem split_down_isSome (block start : Nat) :
    ∀ (k : Nat) (s : BuddyState),
      block % 2 ^ (start + k) = 0 → block + 2 ^ (start + k) ≤ s.end_page →
      ∃ s2, split_down block start k s = some s2 := by
  intro k
  induction k with
  | zero => intro s _ _; exact ⟨s, rfl⟩
  | succ j ih =>
    intro s hmod hle
    have hb : get_buddy_ptr block (start + j) = block + 2 ^ (start + j) :=
      get_buddy_ptr_eq_add _ _ hmod
    have hpow : 2 ^ (start + j) < 2 ^ (start + (j + 1)) := by
      apply Nat.pow_lt_pow_right (by omega)
      omega
    have hlt : get_buddy_ptr block (start + j) < s.end_page := by
      rw [hb]; omega
    unfold split_down
    dsimp only
    rw [if_pos hlt]
    apply ih
    · have hd : (2 : Nat) ^ (start + j) ∣ block :=
        dvd_trans (Nat.pow_dvd_pow 2 (by omega)) (Nat.dvd_of_mod_eq_zero hmod)
      exact Nat.mod_eq_zero_of_dvd hd
    · show block + 2 ^ (start + j) ≤ s.end_page
      omega

theorem mem_of_getLast_eq_some {A : Type} {l : List A} {a : A}
    (h : l.getLast? = some a) : a ∈ l := by
  have hx : a ∈ l.getLast? := Option.mem_iff.mpr h
  obtain ⟨hne, heq⟩ := List.mem_getLast?_eq_getLast hx
  rw [heq]
  exact List.getLast_mem hne

/-- The level scan of `alloc` succeeds iff some level in the scanned
range has a non-empty free list, and a successful result is aligned to
the starting size class. -/
theorem alloc_scan_spec (start : Nat) :
    ∀ (levels : List Nat) (s : BuddyState),
      (∀ l ∈ levels, start ≤ l ∧ l < s.max_level + 1) →
      buddy_lists_wf s →
      ((∀ l ∈ levels, s.free_lists l = []) → alloc_scan start levels s = .error .physicalOOM)
      ∧ ((∃ l ∈ levels, s.free_lists l ≠ []) →
          ∃ a s2, alloc_scan start levels s = .ok (a, s2) ∧ a % 2 ^ start = 0) := by
  intro levels
  induction levels with
  | nil =>
    intro s _ _
    refine ⟨fun _ => rfl, ?_⟩
    rintro ⟨l, hl, _⟩
    cases hl
  | cons l0 rest ih =>
    intro s hrange hwf
    match hlast : (s.free_lists l0).getLast? with
    | none =>
      have hempty : s.free_lists l0 = [] := List.getLast?_eq_none_iff.mp hlast
      have hrest := ih s (fun l hl => hrange l (List.mem_cons_of_mem _ hl)) hwf
      constructor
      · intro hall
        show alloc_scan start (l0 :: rest) s = .error .physicalOOM
        unfold alloc_scan
        rw [hlast]
        exact hrest.1 (fun l hl => hall l (List.mem_cons_of_mem _ hl))
      · rintro ⟨l, hl, hne⟩
        rcases List.mem_cons.mp hl with heq | hmem
        · subst heq; exact absurd hempty hne
        · obtain ⟨a, s2, hrun, hal⟩ := hrest.2 ⟨l, hmem, hne⟩
          refine ⟨a, s2, ?_, hal⟩
          unfold alloc_scan
          rw [hlast]
          exact hrun
    | some block =>
      have hmem : block ∈ s.free_lists l0 := mem_of_getLast_eq_some hlast
      have hl0 : l0 ∈ List.range (s.max_level + 1) := by
        have := hrange l0 (List.mem_cons_self _ _)
        exact List.mem_range.mpr this.2
      have hblk := hwf l0 hl0 block hmem
      have hstart : start ≤ l0 := (hrange l0 (List.mem_cons_self _ _)).1
      have hmodk : block % 2 ^ (start + (l0 - start)) = 0 := by
        rw [Nat.add_sub_cancel' hstart]
        exact hblk.1
      have hlek : block + 2 ^ (start + (l0 - start)) ≤ s.end_page := by
        rw [Nat.add_sub_cancel' hstart]
        exact hblk.2
      obtain ⟨s2, hsplit⟩ := split_down_isSome block start (l0 - start)
        ((flip_bit (set_free_list s l0 (s.free_lists l0).dropLast) l0 block).2)
        hmodk hlek
      constructor
      · intro hall
        have : s.free_lists l0 = [] := hall l0 (List.mem_cons_self _ _)
        rw [this] at hlast
        cases hlast
      · intro _
        refine ⟨block, s2, ?_, ?_⟩
        · unfold alloc_scan
          rw [hlast]
          dsimp only
          rw [hsplit]
        · have hd : (2 : Nat) ^ start ∣ block :=
            dvd_trans (Nat.pow_dvd_pow 2 hstart) (Nat.dvd_of_mod_eq_zero hblk.1)
          exact Nat.mod_eq_zero_of_dvd hd

theorem is_power_of_two_two_pow (k : Nat) : is_power_of_two (2 ^ k) = true := by
  unfold is_power_of_two
  have h1 : 0 < 2 ^ k := Nat.two_pow_pos k
  have h2 : 2 ^ k &&& (2 ^ k - 1) = 0 := by
    apply Nat.eq_of_testBit_eq
    intro i
    simp [Nat.testBit_and, Nat.testBit_two_pow, Nat.testBit_two_pow_sub_one]
  simp [h1, h2]

theorem is_power_of_two_next (n : Nat) : is_power_of_two (next_power_of_two n) = true := by
  unfold next_power_of_two
  by_cases h : n ≤ 1
  · rw [if_pos h]; decide
  · rw [if_neg h]; exact is_power_of_two_two_pow _

theorem is_power_of_two_max {a b : Nat} (ha : is_power_of_two a = true)
    (hb : is_power_of_two b = true) : is_power_of_two (max a b) = true := by
  rcases max_choice a b with h | h <;> rw [h] <;> assumption

/-! ## Theorems for claims C5, C6 and C7 -/

/-- C5 (amended).  `BuddyAllocator::alloc(size)` itself rejects every
non-power-of-two `size` (including zero) with `AllocError` rather than
rounding it; for a power-of-two `size` it draws from the size classes
`max(log2 size, log2 min_block) ..= log2 max_block` — i.e. it rounds
only up to `min_block` — succeeding (with a block aligned to the
rounded class) exactly when one of those classes has a free block.
The rounding of arbitrary sizes to the next power of two happens in
the `Allocator::allocate` wrapper, which passes
`max(size.next_power_of_two(), align)` to `alloc`, so requests routed
through `allocate` do succeed for non-power-of-two sizes whenever a
sufficient free block exists. -/
theorem c5_alloc_rounding (s : BuddyState) (size lsize lalign : Nat)
    (hwf : buddy_lists_wf s) (hal : is_power_of_two lalign = true) :
    (is_power_of_two size = false → s.alloc size = .error .allocError)
    ∧ (is_power_of_two size = true →
        ((∃ l ∈ alloc_levels s size, s.free_lists l ≠ []) →
          ∃ a s2, s.alloc size = .ok (a, s2) ∧ a % 2 ^ (max (ilog2 size) s.min_level) = 0)
        ∧ ((∀ l ∈ alloc_levels s size, s.free_lists l = []) →
          s.alloc size = .error .physicalOOM))
    ∧ ((∃ l ∈ alloc_levels s (max (next_power_of_two lsize) lalign), s.free_lists l ≠ []) →
        ∃ a s2, s.allocate lsize lalign = .ok (a, s2)) := by
  have hrange : ∀ size', ∀ l ∈ alloc_levels s size',
      max (ilog2 size') s.min_level ≤ l ∧ l < s.max_level + 1 := by
    intro size' l hl
    unfold alloc_levels at hl
    rw [List.mem_range'_1] at hl
    omega
  have halloc : ∀ size', is_power_of_two size' = true →
      s.alloc size' = alloc_scan (max (ilog2 size') s.min_level) (alloc_levels s size') s := by
    intro size' h
    unfold BuddyState.alloc alloc_levels
    rw [if_neg (by simp [h])]
  refine ⟨?_, ?_, ?_⟩
  · intro h
    unfold BuddyState.alloc
    rw [if_pos h]
  · intro h
    have hspec := alloc_scan_spec (max (ilog2 size) s.min_level) (alloc_levels s size) s
      (hrange size) hwf
    constructor
    · intro hex
      obtain ⟨a, s2, hrun, hal2⟩ := hspec.2 hex
      exact ⟨a, s2, by rw [halloc size h]; exact hrun, hal2⟩
    · intro hall
      rw [halloc size h]
      exact hspec.1 hall
  · intro hex
    have hp : is_power_of_two (max (next_power_of_two lsize) lalign) = true :=
      is_power_of_two_max (is_power_of_two_next lsize) hal
    have hspec := alloc_scan_spec
      (max (ilog2 (max (next_power_of_two lsize) lalign)) s.min_level)
      (alloc_levels s (max (next_power_of_two lsize) lalign)) s (hrange _) hwf
    obtain ⟨a, s2, hrun, _⟩ := hspec.2 hex
    refine ⟨a, s2, ?_⟩
    unfold BuddyState.allocate
    rw [halloc _ hp, hrun]
    rfl

/-- Counterexample for C5 as stated: on a freshly managed 64 KiB-style
region (here scaled to blocks of 16..64 bytes) with four free 64-byte
blocks, `alloc(5)` — a non-power-of-two size — returns `AllocError`
instead of rounding 5 up and succeeding. -/
theorem c5_alloc_rounding_counterexample :
    (mk_buddy_state 0 256 16 64).free_lists 6 = [0, 64, 128, 192]
    ∧ alloc_err (mk_buddy_state 0 256 16 64) 5 = some BuddyError.allocError := by
  decide

/-- Witness for C5 at a concrete state and sizes. -/
theorem c5_alloc_rounding_witness :
    (buddy_lists_wf (mk_buddy_state 0 256 16 64) ∧ is_power_of_two 1 = true)
    ∧ ((is_power_of_two 16 = false →
        (mk_buddy_state 0 256 16 64).alloc 16 = .error .allocError)
    ∧ (is_power_of_two 16 = true →
        ((∃ l ∈ alloc_levels (mk_buddy_state 0 256 16 64) 16,
            (mk_buddy_state 0 256 16 64).free_lists l ≠ []) →
          ∃ a s2, (mk_buddy_state 0 256 16 64).alloc 16 = .ok (a, s2)
            ∧ a % 2 ^ (max (ilog2 16) (mk_buddy_state 0 256 16 64).min_level) = 0)
        ∧ ((∀ l ∈ alloc_levels (mk_buddy_state 0 256 16 64) 16,
            (mk_buddy_state 0 256 16 64).free_lists l = []) →
          (mk_buddy_state 0 256 16 64).alloc 16 = .error .physicalOOM))
    ∧ ((∃ l ∈ alloc_levels (mk_buddy_state 0 256 16 64) (max (next_power_of_two 5) 1),
          (mk_buddy_state 0 256 16 64).free_lists l ≠ []) →
        ∃ a s2, (mk_buddy_state 0 256 16 64).allocate 5 1 = .ok (a, s2))) :=
  ⟨⟨by decide, by decide⟩,
    c5_alloc_rounding (mk_buddy_state 0 256 16 64) 16 5 1 (by decide) (by decide)⟩

/-- C6 (amended).  For every `size ≥ 1`, `BuddyAllocator::free(ptr,
size)` returns `AllocError` — before touching any free list or
free-map state — whenever `ptr` lies outside the managed region, or
`size` is not a power of two, or its size class exceeds `max_block`.
For `size = 0` the source instead panics: `size.ilog2()` is evaluated
before the validation and `ilog2` panics on zero. -/
theorem c6_free_invalid_argument (s : BuddyState) (ptr size : Nat) (h1 : 1 ≤ size)
    (h2 : s.start_page > ptr ∨ s.end_page < ptr + size ∨ is_power_of_two size = false
        ∨ s.max_level < max (ilog2 size) s.min_level) :
    s.free ptr size = .error .allocError := by
  unfold BuddyState.free
  rw [if_neg (by omega)]
  dsimp only
  rw [if_pos h2]

/-- Counterexample for C6 as stated: `free(64, 0)` on a managed region
panics at `size.ilog2()` instead of returning `AllocError`. -/
theorem c6_free_invalid_argument_counterexample :
    free_err (mk_buddy_state 0 256 16 64) 64 0 ≠ some BuddyError.allocError
    ∧ free_err (mk_buddy_state 0 256 16 64) 64 0 = some BuddyError.panic := by
  decide

/-- Witness for C6 with an out-of-range pointer. -/
theorem c6_free_invalid_argument_witness :
    (1 ≤ 16
      ∧ ((mk_buddy_state 0 256 16 64).start_page > 999
        ∨ (mk_buddy_state 0 256 16 64).end_page < 999 + 16
        ∨ is_power_of_two 16 = false
        ∨ (mk_buddy_state 0 256 16 64).max_level
            < max (ilog2 16) (mk_buddy_state 0 256 16 64).min_level))
    ∧ (mk_buddy_state 0 256 16 64).free 999 16 = .error .allocError :=
  ⟨⟨by decide, by decide⟩,
    c6_free_invalid_argument (mk_buddy_state 0 256 16 64) 999 16 (by decide) (by decide)⟩

/-- C7.  Evaluation of the code at the failing input: manage a region
holding four free max-size blocks (min_block 16, max_block 64, region
[0, 256)); `alloc(64)` hands out block 192, and `free(192, 64)` then
coalesces across the `max_block` boundary — the pair bit for blocks
128/192 indicates "buddy free", so the source removes block 128 from
its free list, merges, runs out of levels, and returns `Ok` without
pushing the merged block anywhere.  The free-area histogram afterwards
shows two 64-byte blocks instead of the original four: the histogram
is not restored even though every allocation was freed with its own
size. -/
theorem c7_free_histogram_not_restored :
    (mk_buddy_state 0 256 16 64).histogram = [(16, 0), (32, 0), (64, 4)]
    ∧ alloc_addr (mk_buddy_state 0 256 16 64) 64 = some 192
    ∧ histogram_after_alloc_free (mk_buddy_state 0 256 16 64) 64
        = some [(16, 0), (32, 0), (64, 2)]
    ∧ ([((16 : Nat), (0 : Nat)), (32, 0), (64, 2)] : List (Nat × Nat))
        ≠ [(16, 0), (32, 0), (64, 4)] := by
  decide



theorem mem_drop_one_of_dropLast {A : Type} {l : List A} {a : A}
    (h : a ∈ l.dropLast.drop 1) : a ∈ l.drop 1 := by
  rw [List.dropLast_eq_take, List.drop_take] at h
  exact List.take_subset _ _ h

theorem getLast_mem_drop_one {A : Type} {l : List A} {x : A} (hlen : 2 ≤ l.length)
    (h : l.getLast? = some x) : x ∈ l.drop 1 := by
  cases l with
  | nil => simp at hlen
  | cons y ys =>
    cases ys with
    | nil => simp at hlen
    | cons z zs =>
      rw [List.getLast?_cons_cons] at h
      rw [List.drop_one]
      simpa using mem_of_getLast_eq_some h

theorem mem_drop_one_append_singleton {A : Type} {l : List A} {a x : A}
    (h : a ∈ (l ++ [x]).drop 1) : a ∈ l.drop 1 ∨ a = x := by
  cases l with
  | nil =>
    simp only [List.nil_append] at h
    right
    exact absurd h (by simp)
  | cons y ys =>
    rw [List.drop_one] at h ⊢
    simp only [List.cons_append, List.tail_cons] at h
    rcases List.mem_append.mp h with h | h
    · left; exact h
    · right; simpa using h

theorem ofNat_toNat_level {n : Nat} {l : AddressTranslationLevel}
    (h : AddressTranslationLevel.ofNat? n = some l) : n = l.toNat := by
  unfold AddressTranslationLevel.ofNat? at h
  rcases n with _ | _ | _ | _ | n
  · cases h; rfl
  · cases h; rfl
  · cases h; rfl
  · cases h; rfl
  · cases h

theorem mem_tt_tables_root (tt : TT) : tt.root ∈ tt_tables tt :=
  List.mem_cons_self _ _

theorem mem_tt_tables_of_mem {tt : TT} {p : Nat × DescTable} (h : p ∈ tt.mem) :
    p.2 ∈ tt_tables tt :=
  List.mem_cons_of_mem _ (List.mem_map_of_mem (fun p => p.2) h)

theorem trav_load_desc_mem {tt : TT} {rA a idx desc : Nat}
    (h : trav_load_desc tt rA a idx = some desc) :
    ∃ t ∈ tt_tables tt, ∃ i : Fin 512, t i = desc := by
  unfold trav_load_desc trav_table_at at h
  by_cases hra : a = rA
  · rw [if_pos hra] at h
    rw [Option.some_bind] at h
    split at h
    · next hlt =>
      exact ⟨tt.root, mem_tt_tables_root tt, ⟨idx, hlt⟩, by injection h⟩
    · cases h
  · rw [if_neg hra] at h
    match hf : tt.mem.find? (fun p => p.1 = a) with
    | none => rw [hf] at h; cases h
    | some p =>
      rw [hf, Option.map_some', Option.some_bind] at h
      split at h
      · next hlt =>
        exact ⟨p.2, mem_tt_tables_of_mem (List.mem_of_find?_eq_some hf),
          ⟨idx, hlt⟩, by injection h⟩
      · cases h

theorem read_next_level_desc_zero : read_next_level_desc 0 = 0 := by decide

theorem set_zero_child_ne {rA : Nat} (hra : rA ≠ 0) {t : DescTable} (idx : Nat)
    (h : ∀ i : Fin 512, read_next_level_desc (t i) ≠ rA) :
    ∀ i : Fin 512, read_next_level_desc (DescTable.set t idx 0 i) ≠ rA := by
  intro i
  unfold DescTable.set
  by_cases hc : i.val = idx
  · rw [if_pos hc, read_next_level_desc_zero]
    omega
  · rw [if_neg hc]; exact h i

theorem tt_tables_store {tt : TT} (rA2 a idx v : Nat) :
    ∀ t' ∈ tt_tables (trav_store_desc tt rA2 a idx v),
      (t' ∈ tt_tables tt) ∨ (∃ t ∈ tt_tables tt, t' = DescTable.set t idx v) := by
  intro t' ht
  unfold trav_store_desc at ht
  by_cases hc : a = rA2
  · rw [if_pos hc] at ht
    rcases List.mem_cons.mp ht with h | h
    · right
      exact ⟨tt.root, mem_tt_tables_root tt, h⟩
    · left
      exact List.mem_cons_of_mem _ h
  · rw [if_neg hc] at ht
    rcases List.mem_cons.mp ht with h | h
    · left
      rw [h]
      exact mem_tt_tables_root tt
    · obtain ⟨p, hp, hfp⟩ := List.mem_map.mp h
      obtain ⟨q, hq, hgq⟩ := List.mem_map.mp hp
      by_cases hb : q.1 = a
      · rw [if_pos hb] at hgq
        right
        refine ⟨q.2, mem_tt_tables_of_mem hq, ?_⟩
        rw [← hfp, ← hgq]
      · rw [if_neg hb] at hgq
        left
        rw [← hfp, ← hgq]
        exact mem_tt_tables_of_mem hq

theorem no_child_is_root_store_zero {tt : TT} {rA : Nat} (rA2 a idx : Nat)
    (h : no_child_is_root tt rA) :
    no_child_is_root (trav_store_desc tt rA2 a idx 0) rA := by
  obtain ⟨hra, htab⟩ := h
  refine ⟨hra, ?_⟩
  intro t ht
  rcases tt_tables_store rA2 a idx 0 t ht with hm | ⟨t0, ht0, hEq⟩
  · exact htab t hm
  · rw [hEq]
    exact set_zero_child_ne hra idx (htab t0 ht0)


theorem fnve_fields (tt : TT) (descs : Nat) (level : AddressTranslationLevel) :
    ∀ (fuel idx : Nat) (it : TravIter),
      ((find_next_valid_entry tt descs level fuel idx it).2.stash = it.stash)
      ∧ ((find_next_valid_entry tt descs level fuel idx it).2.empty_descs = it.empty_descs) := by
  intro fuel
  induction fuel with
  | zero => intro idx it; exact ⟨rfl, rfl⟩
  | succ f ih =>
    intro idx it
    unfold find_next_valid_entry
    dsimp only
    split
    · split
      · split
        · exact ⟨rfl, rfl⟩
        · split
          · exact ih (idx + 1) _
          · exact ⟨rfl, rfl⟩
      · exact ⟨rfl, rfl⟩
    · exact ⟨rfl, rfl⟩

theorem trav_inv_of_fields {rA : Nat} {it it2 : TravIter} (hJ : trav_inv rA it)
    (hs : it2.stash = it.stash) (he : it2.empty_descs = it.empty_descs) :
    trav_inv rA it2 := by
  unfold trav_inv at hJ ⊢
  rw [hs, he]
  exact hJ

theorem free_descs_if_empty_spec {rA : Nat} {tt : TT} {it : TravIter} {descs : Nat}
    {level : AddressTranslationLevel}
    (hJ : trav_inv rA it) (hwf : no_child_is_root tt rA)
    (hd : level = .zero ∨ descs ≠ rA) :
    trav_inv rA (free_descs_if_empty tt it descs level).2
    ∧ no_child_is_root (free_descs_if_empty tt it descs level).1 rA
    ∧ (free_descs_if_empty tt it descs level).2.stash = it.stash := by
  unfold free_descs_if_empty
  split
  · exact ⟨hJ, hwf, rfl⟩
  · next hguard =>
    push_neg at hguard
    split
    · exact ⟨hJ, hwf, rfl⟩
    · split
      · refine ⟨⟨hJ.1, ?_⟩, ?_, rfl⟩
        · intro a ha
          rcases List.mem_append.mp ha with ha | ha
          · exact hJ.2 a ha
          · have : a = descs := by simpa using ha
            rw [this]
            rcases hd with hz | hne
            · exact absurd hz hguard.2
            · exact hne
        · exact no_child_is_root_store_zero _ _ _ hwf
      · exact ⟨hJ, hwf, rfl⟩


theorem length_pos_of_getLast_eq_some {A : Type} {l : List A} {x : A}
    (h : l.getLast? = some x) : 1 ≤ l.length := by
  cases l with
  | nil => cases h
  | cons y ys => simp

theorem trav_ascend_spec {rA : Nat} {tt : TT} {it : TravIter}
    (hJ : trav_inv rA it) (hwf : no_child_is_root tt rA) :
    (match trav_ascend tt it with
     | .ok r => trav_inv rA r.2.2 ∧ no_child_is_root r.2.1 rA
     | .error _ => True) := by
  unfold trav_ascend
  rcases hof : AddressTranslationLevel.ofNat? (it.stash.length - 1) with _ | level
  all_goals rcases hlast : it.stash.getLast? with _ | descs
  all_goals dsimp only
  case some.some =>
    have hJ1 : trav_inv rA { it with stash := it.stash.dropLast } := by
      refine ⟨?_, hJ.2⟩
      intro a ha
      exact hJ.1 a (mem_drop_one_of_dropLast ha)
    have hd : level = .zero ∨ descs ≠ rA := by
      by_cases hz : level = .zero
      · exact Or.inl hz
      · right
        have hn := ofNat_toNat_level hof
        have hlen1 : 1 ≤ it.stash.length := length_pos_of_getLast_eq_some hlast
        have htn : 1 ≤ level.toNat := by
          cases level with
          | zero => exact absurd rfl hz
          | one => decide
          | two => decide
          | three => decide
        have hlen2 : 2 ≤ it.stash.length := by omega
        exact fun hcon => absurd hcon
          (by
            have := hJ.1 descs (getLast_mem_drop_one hlen2 hlast)
            exact this)
    have hspec :=
      @free_descs_if_empty_spec rA tt { it with stash := it.stash.dropLast } descs level
        hJ1 hwf hd
    refine ⟨⟨?_, ?_⟩, hspec.2.1⟩
    · intro a ha
      exact hspec.1.1 a ha
    · intro a ha
      exact hspec.1.2 a ha


theorem to_raw_desc_tableOrPage_eq {v w : Nat} (h : to_raw_desc v = .tableOrPage w) :
    w = v := by
  unfold to_raw_desc at h
  split at h
  · injection h with h; exact h.symm
  · split at h
    · cases h
    · cases h

theorem parse_desc_table_eq {v d : Nat} {level : AddressTranslationLevel}
    (h : parse_desc v level = some (.table d)) : d = v := by
  unfold parse_desc at h
  cases hraw : to_raw_desc v with
  | tableOrPage w =>
    rw [hraw] at h
    dsimp only at h
    split at h
    · cases h
    · injection h with h
      injection h with h
      rw [← h]
      exact to_raw_desc_tableOrPage_eq hraw
  | block w =>
    rw [hraw] at h
    dsimp only at h
    split at h
    · injection h with h; cases h
    · cases h
  | invalid =>
    rw [hraw] at h
    dsimp only at h
    injection h with h
    cases h

theorem drain_ascend_spec {rA : Nat} :
    ∀ (fuel : Nat) (tt : TT) (it : TravIter),
      trav_inv rA it → no_child_is_root tt rA →
      (match drain_ascend fuel tt it with
       | .ok r => trav_inv rA r.2 ∧ no_child_is_root r.1 rA
       | .error _ => True) := by
  intro fuel
  induction fuel with
  | zero => intro tt it _ _; exact trivial
  | succ f ih =>
    intro tt it hJ hwf
    have hasc := trav_ascend_spec hJ hwf
    unfold drain_ascend
    rcases hstep : trav_ascend tt it with e | ⟨b, tt2, it2⟩
    · exact trivial
    · rw [hstep] at hasc
      dsimp only at hasc ⊢
      cases b with
      | true => exact ih tt2 it2 hasc.1 hasc.2
      | false => exact hasc

theorem move_up_loop_spec {rA : Nat} :
    ∀ (fuel : Nat) (tt : TT) (it : TravIter),
      trav_inv rA it → no_child_is_root tt rA →
      (match move_up_loop fuel tt it with
       | .ok r => trav_inv rA r.2.2 ∧ no_child_is_root r.2.1 rA
       | .error _ => True) := by
  intro fuel
  induction fuel with
  | zero => intro tt it _ _; exact trivial
  | succ f ih =>
    intro tt it hJ hwf
    have hasc := trav_ascend_spec hJ hwf
    unfold move_up_loop
    rcases hstep : trav_ascend tt it with e | ⟨b, tt2, it2⟩
    · exact trivial
    · rw [hstep] at hasc
      dsimp only at hasc ⊢
      cases b with
      | false => exact hasc
      | true =>
        rcases hlast : it2.stash.getLast? with _ | parent
        all_goals rcases hof : AddressTranslationLevel.ofNat? (it2.stash.length - 1)
          with _ | parent_level
        all_goals dsimp only
        all_goals try exact trivial
        case some.some =>
          have hfields := fnve_fields tt2 parent parent_level 512
            (get_idx_for_level it2.va_explored parent_level + 1) it2
          have hJ2 : trav_inv rA (find_next_valid_entry tt2 parent parent_level 512
              (get_idx_for_level it2.va_explored parent_level + 1) it2).2 :=
            trav_inv_of_fields hasc.1 hfields.1 hfields.2
          cases hfound : (find_next_valid_entry tt2 parent parent_level 512
              (get_idx_for_level it2.va_explored parent_level + 1) it2).1 with
          | true => exact And.intro hJ2 hasc.2
          | false =>
            have h2 := ih tt2 (find_next_valid_entry tt2 parent parent_level 512
              (get_idx_for_level it2.va_explored parent_level + 1) it2).2 hJ2 hasc.2
            exact h2

theorem trav_move_up_spec {rA : Nat} {tt : TT} {it : TravIter}
    (hJ : trav_inv rA it) (hwf : no_child_is_root tt rA) :
    (match trav_move_up tt it with
     | .ok r => trav_inv rA r.2.2 ∧ no_child_is_root r.2.1 rA
     | .error _ => True) := by
  unfold trav_move_up
  by_cases hemp : it.stash.isEmpty = true
  · rw [if_pos hemp]
    exact trivial
  · rw [if_neg hemp]
    by_cases hend : it.va_explored ≥ it.rng_end
    · rw [if_pos hend]
      have hdrain := @drain_ascend_spec rA (it.stash.length + 1) tt it hJ hwf
      rcases hstep : drain_ascend (it.stash.length + 1) tt it with e | ⟨tt2, it2⟩
      · exact trivial
      · rw [hstep] at hdrain
        dsimp only at hdrain ⊢
        exact hdrain
    · rw [if_neg hend]
      exact move_up_loop_spec (it.stash.length + 1) tt it hJ hwf

theorem trav_move_right_spec {rA : Nat} {tt : TT} {it : TravIter}
    (hJ : trav_inv rA it) (hwf : no_child_is_root tt rA) :
    (match trav_move_right tt it with
     | .ok r => trav_inv rA r.2.2 ∧ no_child_is_root r.2.1 rA
     | .error _ => True) := by
  unfold trav_move_right
  rcases hlast : it.stash.getLast? with _ | descs
  all_goals rcases hof : AddressTranslationLevel.ofNat? (it.stash.length - 1) with _ | level
  all_goals dsimp only
  case some.some =>
    by_cases hva : it.va_explored < it.rng_end
    · rw [if_pos hva]
      have hfields := fnve_fields tt descs level 512
        (get_idx_for_level it.va_explored level + 1) it
      have hJ2 : trav_inv rA (find_next_valid_entry tt descs level 512
          (get_idx_for_level it.va_explored level + 1) it).2 :=
        trav_inv_of_fields hJ hfields.1 hfields.2
      cases hfound : (find_next_valid_entry tt descs level 512
          (get_idx_for_level it.va_explored level + 1) it).1 with
      | true => exact And.intro hJ2 hwf
      | false =>
        have h2 := @trav_move_up_spec rA tt _ hJ2 hwf
        exact h2
    · rw [if_neg hva]
      exact trivial

theorem trav_step_spec {rA : Nat} {tt : TT} {it : TravIter}
    (hJ : trav_inv rA it) (hwf : no_child_is_root tt rA) :
    (match trav_step tt it with
     | .ok r => trav_inv rA r.2.2 ∧ no_child_is_root r.2.1 rA
     | .error _ => True) := by
  unfold trav_step
  rcases hlast : it.stash.getLast? with _ | descs
  all_goals rcases hof : AddressTranslationLevel.ofNat? (it.stash.length - 1) with _ | level
  all_goals dsimp only
  case some.some =>
    by_cases hva : it.va_explored < it.rng_end
    · rw [if_pos hva]
      rcases hload : trav_load_desc tt it.root_addr descs
          (get_idx_for_level it.va_explored level) with _ | desc
      · exact trivial
      · dsimp only
        rcases hparse : parse_desc desc level with _ | pd
        · exact trivial
        · cases pd with
          | table d =>
            dsimp only
            by_cases hchild : read_next_level_desc d = 0
            · rw [if_pos hchild]
              exact trivial
            · rw [if_neg hchild]
              have h1 : ∀ a ∈ (it.stash ++ [read_next_level_desc d]).drop 1, a ≠ rA := by
                intro a ha
                rcases mem_drop_one_append_singleton ha with ha | ha
                · exact hJ.1 a ha
                · rw [ha]
                  have hdeq : d = desc := parse_desc_table_eq hparse
                  obtain ⟨t, htm, i, hti⟩ := trav_load_desc_mem hload
                  rw [hdeq, ← hti]
                  exact hwf.2 t htm i
              exact And.intro (And.intro h1 hJ.2) hwf
          | block d =>
            have h2 := @trav_move_right_spec rA tt it hJ hwf
            exact h2
          | page d =>
            have h2 := @trav_move_right_spec rA tt it hJ hwf
            exact h2
          | invalid =>
            have h2 := @trav_move_right_spec rA tt it hJ hwf
            exact h2
    · rw [if_neg hva]
      exact trivial

theorem fetch_block_spec {rA : Nat} :
    ∀ (fuel : Nat) (tt : TT) (it : TravIter),
      trav_inv rA it → no_child_is_root tt rA →
      trav_inv rA (fetch_block fuel tt it).2.2 ∧
        no_child_is_root (fetch_block fuel tt it).2.1 rA := by
  intro fuel
  induction fuel with
  | zero => intro tt it hJ hwf; exact ⟨hJ, hwf⟩
  | succ f ih =>
    intro tt it hJ hwf
    unfold fetch_block
    by_cases hemp : it.stash.isEmpty = true
    · rw [if_pos hemp]; exact ⟨hJ, hwf⟩
    · rw [if_neg hemp]
      rcases hstate : it.state with e | st
      · exact ⟨hJ, hwf⟩
      · cases st with
        | halt => exact ⟨hJ, hwf⟩
        | load =>
          rcases hlb : load_block tt it with e | ob
          · exact ⟨hJ, hwf⟩
          · cases ob with
            | some info => exact ⟨hJ, hwf⟩
            | none =>
              have h2 := ih tt { it with state := .ok .step } hJ hwf
              exact h2
        | moveRight =>
          have hmv := @trav_move_right_spec rA tt it hJ hwf
          rcases hstep : trav_move_right tt it with e | ⟨st2, tt2, it2⟩
          · have h2 := ih tt { it with state := .error e } hJ hwf
            exact h2
          · rw [hstep] at hmv
            dsimp only at hmv
            have h2 := ih tt2 { it2 with state := .ok st2 } hmv.1 hmv.2
            exact h2
        | step =>
          have hmv := @trav_step_spec rA tt it hJ hwf
          rcases hstep : trav_step tt it with e | ⟨st2, tt2, it2⟩
          · have h2 := ih tt { it with state := .error e } hJ hwf
            exact h2
          · rw [hstep] at hmv
            dsimp only at hmv
            have h2 := ih tt2 { it2 with state := .ok st2 } hmv.1 hmv.2
            exact h2

theorem iter_next_spec {rA : Nat} {fuel : Nat} {tt : TT} {it : TravIter}
    (hJ : trav_inv rA it) (hwf : no_child_is_root tt rA) :
    (∀ a, (iter_next fuel tt it).1 = some (.ok (.unusedMemory a)) → a ≠ rA) ∧
      trav_inv rA (iter_next fuel tt it).2.2 ∧
      no_child_is_root (iter_next fuel tt it).2.1 rA := by
  unfold iter_next
  rcases hlast : it.empty_descs.getLast? with _ | d
  · dsimp only
    have hfb := @fetch_block_spec rA fuel tt it hJ hwf
    rcases hres : fetch_block fuel tt it with ⟨fr, tt2, it2⟩
    rw [hres] at hfb
    cases fr with
    | block info =>
      refine ⟨?_, hfb.1, hfb.2⟩
      intro a ha
      injection ha with ha
      cases ha
    | err e =>
      refine ⟨?_, hfb.1, hfb.2⟩
      intro a ha
      injection ha with ha
      cases ha
    | noneLeft =>
      refine ⟨?_, hfb.1, hfb.2⟩
      intro a ha
      cases ha
  · dsimp only
    refine ⟨?_, ⟨hJ.1, ?_⟩, hwf⟩
    · intro a ha
      injection ha with ha
      injection ha with ha
      injection ha with ha
      rw [← ha]
      exact hJ.2 d (mem_of_getLast_eq_some hlast)
    · intro a ha
      exact hJ.2 a (List.dropLast_subset _ ha)

theorem traverse_run_spec {rA : Nat} :
    ∀ (fuel : Nat) (tt : TT) (it : TravIter),
      trav_inv rA it → no_child_is_root tt rA →
      ∀ a, (Except.ok (TraverseYield.unusedMemory a) ∈ traverse_run fuel tt it) →
      a ≠ rA := by
  intro fuel
  induction fuel with
  | zero =>
    intro tt it _ _ a hmem
    exact absurd hmem (by simp [traverse_run])
  | succ f ih =>
    intro tt it hJ hwf a hmem
    unfold traverse_run at hmem
    have hni := @iter_next_spec rA (f + 1) tt it hJ hwf
    rcases hnext : iter_next (f + 1) tt it with ⟨oy, tt2, it2⟩
    rw [hnext] at hmem hni
    cases oy with
    | none => exact absurd hmem (by simp)
    | some y =>
      dsimp only at hmem hni
      rcases List.mem_cons.mp hmem with hmem | hmem
      · exact hni.1 a (by rw [← hmem])
      · exact ih tt2 it2 hni.2.1 hni.2.2 a hmem

theorem begin_walk_inv {rA vaddr : Nat} {tt : TT} (hwf : no_child_is_root tt rA) :
    ∀ (levels : List AddressTranslationLevel) (descs : Nat) (it : TravIter),
      trav_inv rA it → (it.stash = [] ∨ descs ≠ rA) →
      trav_inv rA (begin_walk tt rA vaddr levels descs it) := by
  intro levels
  induction levels with
  | nil => intro descs it hJ _; exact hJ
  | cons level rest ih =>
    intro descs it hJ hd
    unfold begin_walk
    dsimp only
    rcases hload : trav_load_desc tt rA descs (get_idx_for_level vaddr level) with _ | desc
    · exact hJ
    · dsimp only
      have hJ1 : trav_inv rA
          { it with
            va_explored := set_idx_for_level it.va_explored level (get_idx_for_level vaddr level)
            stash := it.stash ++ [descs] } := by
        refine ⟨?_, hJ.2⟩
        intro a ha
        have ha1 : a ∈ (it.stash ++ [descs]).drop 1 := ha
        rcases hd with hd | hd
        · rw [hd] at ha1
          exact absurd ha1 (by simp)
        · rcases mem_drop_one_append_singleton ha1 with h1 | h1
          · exact hJ.1 a h1
          · rw [h1]; exact hd
      rcases hparse : parse_desc desc level with _ | pd
      · exact hJ1
      · cases pd with
        | table d =>
          dsimp only
          by_cases hchild : read_next_level_desc d = 0
          · rw [if_pos hchild]
            exact hJ1
          · rw [if_neg hchild]
            refine ih (read_next_level_desc d) _ hJ1 (Or.inr ?_)
            have hdeq : d = desc := parse_desc_table_eq hparse
            obtain ⟨t, htm, i, hti⟩ := trav_load_desc_mem hload
            rw [hdeq, ← hti]
            exact hwf.2 t htm i
        | block d => exact hJ1
        | page d => exact hJ1
        | invalid => exact hJ1

theorem travIterNew_inv {rA s e : Nat} {tt : TT} {flag : Bool} {it : TravIter}
    (hwf : no_child_is_root tt rA) (h : TravIter.new tt rA s e flag = some it) :
    trav_inv rA it := by
  unfold TravIter.new at h
  by_cases hse : s ≥ e
  · rw [if_pos hse] at h
    injection h with h
    rw [← h]
    exact ⟨fun a ha => absurd ha (by simp), fun a ha => absurd ha (by simp)⟩
  · rw [if_neg hse] at h
    dsimp only at h
    split at h
    · injection h with h
      rw [← h]
      exact begin_walk_inv hwf TRANSLATION_LEVELS rA _
        ⟨fun a ha => absurd ha (by simp), fun a ha => absurd ha (by simp)⟩ (Or.inl rfl)
    · cases h

/-- C9.  For every traversal of a translation table whose root lives at
a nonzero address `rA` that no Table descriptor's next-level-table
field points back at (true of every table the engine builds, since the
root lives inside the `TranslationTable` value itself while child
tables come from the descriptor allocator), no `UnusedMemory` item the
traversal yields ever carries the root's address: only tables at
levels 1-3 are handed back for deallocation, even when all 512 root
entries are invalid. -/
theorem c9_root_never_freed (tt : TT) (rA s e : Nat) (flag : Bool) (fuel : Nat)
    (hwf : no_child_is_root tt rA) :
    ∀ a, Except.ok (TraverseYield.unusedMemory a) ∈ traverse_outputs tt rA s e flag fuel →
      a ≠ rA := by
  intro a hmem
  unfold traverse_outputs at hmem
  rcases hnew : TravIter.new tt rA s e flag with _ | it
  · rw [hnew] at hmem
    exact absurd hmem (by simp)
  · rw [hnew] at hmem
    exact traverse_run_spec fuel tt it (travIterNew_inv hwf hnew) hwf a hmem

set_option maxRecDepth 100000 in
set_option maxHeartbeats 4000000 in
/-- C9 witness: the concrete scenario `c9_tt` satisfies the
well-formedness hypothesis, its traversal does free the empty child
table at `0x100000`, and the theorem applies to show the freed table
is not the root at `0x9000`. -/
theorem c9_root_never_freed_witness :
    no_child_is_root c9_tt 0x9000 ∧ (0x100000 : Nat) ≠ 0x9000 :=
  ⟨by decide,
   c9_root_never_freed c9_tt 0x9000 0 (2 ^ 40) true 20 (by decide) 0x100000 (by decide)⟩

end Mei
